import Mathlib

/-!
Verification development for the bloomberg-fetch repository (`helpers.py`,
`fetch.py`).  The Python functions `parse_value`, `table_to_dataframe`,
`stack_dataframes`, `run_AssetRequest`, `make_request` and
`make_multiple_requests` are shallowly embedded as executable Lean
definitions, and the specification's claims about them are proved or
refuted below.
-/

namespace BloombergFetch

/-- Association-list lookup keyed by `Nat`, modelling a Python dict whose
keys are the integer submission indices. -/
def alookup {α : Type} : List (Nat × α) → Nat → Option α
  | [], _ => none
  | (k, v) :: rest, i => if k = i then some v else alookup rest i

/-- Association-list update, modelling Python dict assignment `d[k] = v`
(overwrite if the key is present, append otherwise). -/
def aupsert {α : Type} : List (Nat × α) → Nat → α → List (Nat × α)
  | [], i, v => [(i, v)]
  | (k, w) :: rest, i, v =>
      if k = i then (k, v) :: rest else (k, w) :: aupsert rest i v

/-- Lookup with a default value. -/
def alookupD {α : Type} (l : List (Nat × α)) (i : Nat) (d : α) : α :=
  (alookup l i).getD d

/-- Python floats as returned by `float(...)`: modelled as exact decimal
rationals plus the special values `inf`/`-inf`/`nan` (no claim depends on
binary rounding, so decimal-exact arithmetic is used). -/
inductive PyFloat where
  | finite (q : ℚ)
  | infty (neg : Bool)
  | nanv
deriving DecidableEq, Repr

/-- A Python datetime as produced by `datetime.fromisoformat` or
`datetime.strptime` in `parse_value`. -/
structure PyDateTime where
  year : Nat
  month : Nat
  day : Nat
  hour : Nat
  minute : Nat
  second : Nat
deriving DecidableEq, Repr

/-- The Python values flowing through this code base: JSON-decoded response
fields, `parse_value` outputs and pandas cells.  `vna` is the pandas
missing-value marker (`pd.NA` / the `None` padding that the DataFrame
constructor inserts). -/
inductive PyVal where
  | vstr (s : String)
  | vint (n : Int)
  | vfloat (f : PyFloat)
  | vbool (b : Bool)
  | vnone
  | vna
  | vdt (d : PyDateTime)
  | vlist (items : List PyVal)
deriving Repr

mutual

/-- Structural (Python `==`) equality on `PyVal`. -/
def pyValBeq : PyVal → PyVal → Bool
  | .vstr a, .vstr b => a = b
  | .vint a, .vint b => a = b
  | .vfloat a, .vfloat b => a = b
  | .vbool a, .vbool b => a = b
  | .vnone, .vnone => true
  | .vna, .vna => true
  | .vdt a, .vdt b => a = b
  | .vlist a, .vlist b => pyValBeqList a b
  | _, _ => false

/-- Elementwise equality on lists of `PyVal`. -/
def pyValBeqList : List PyVal → List PyVal → Bool
  | [], [] => true
  | x :: xs, y :: ys => pyValBeq x y && pyValBeqList xs ys
  | _, _ => false

end

mutual

theorem pyValBeq_iff : ∀ a b : PyVal, pyValBeq a b = true ↔ a = b
  | .vstr a, .vstr b => by simp [pyValBeq]
  | .vint a, .vint b => by simp [pyValBeq]
  | .vfloat a, .vfloat b => by simp [pyValBeq]
  | .vbool a, .vbool b => by simp [pyValBeq]
  | .vnone, .vnone => by simp [pyValBeq]
  | .vna, .vna => by simp [pyValBeq]
  | .vdt a, .vdt b => by simp [pyValBeq]
  | .vlist a, .vlist b => by
      simp only [pyValBeq]
      rw [pyValBeqList_iff a b]
      constructor
      · intro h; rw [h]
      · intro h; cases h; rfl
  | .vstr _, .vint _ => by simp [pyValBeq]
  | .vstr _, .vfloat _ => by simp [pyValBeq]
  | .vstr _, .vbool _ => by simp [pyValBeq]
  | .vstr _, .vnone => by simp [pyValBeq]
  | .vstr _, .vna => by simp [pyValBeq]
  | .vstr _, .vdt _ => by simp [pyValBeq]
  | .vstr _, .vlist _ => by simp [pyValBeq]
  | .vint _, .vstr _ => by simp [pyValBeq]
  | .vint _, .vfloat _ => by simp [pyValBeq]
  | .vint _, .vbool _ => by simp [pyValBeq]
  | .vint _, .vnone => by simp [pyValBeq]
  | .vint _, .vna => by simp [pyValBeq]
  | .vint _, .vdt _ => by simp [pyValBeq]
  | .vint _, .vlist _ => by simp [pyValBeq]
  | .vfloat _, .vstr _ => by simp [pyValBeq]
  | .vfloat _, .vint _ => by simp [pyValBeq]
  | .vfloat _, .vbool _ => by simp [pyValBeq]
  | .vfloat _, .vnone => by simp [pyValBeq]
  | .vfloat _, .vna => by simp [pyValBeq]
  | .vfloat _, .vdt _ => by simp [pyValBeq]
  | .vfloat _, .vlist _ => by simp [pyValBeq]
  | .vbool _, .vstr _ => by simp [pyValBeq]
  | .vbool _, .vint _ => by simp [pyValBeq]
  | .vbool _, .vfloat _ => by simp [pyValBeq]
  | .vbool _, .vnone => by simp [pyValBeq]
  | .vbool _, .vna => by simp [pyValBeq]
  | .vbool _, .vdt _ => by simp [pyValBeq]
  | .vbool _, .vlist _ => by simp [pyValBeq]
  | .vnone, .vstr _ => by simp [pyValBeq]
  | .vnone, .vint _ => by simp [pyValBeq]
  | .vnone, .vfloat _ => by simp [pyValBeq]
  | .vnone, .vbool _ => by simp [pyValBeq]
  | .vnone, .vna => by simp [pyValBeq]
  | .vnone, .vdt _ => by simp [pyValBeq]
  | .vnone, .vlist _ => by simp [pyValBeq]
  | .vna, .vstr _ => by simp [pyValBeq]
  | .vna, .vint _ => by simp [pyValBeq]
  | .vna, .vfloat _ => by simp [pyValBeq]
  | .vna, .vbool _ => by simp [pyValBeq]
  | .vna, .vnone => by simp [pyValBeq]
  | .vna, .vdt _ => by simp [pyValBeq]
  | .vna, .vlist _ => by simp [pyValBeq]
  | .vdt _, .vstr _ => by simp [pyValBeq]
  | .vdt _, .vint _ => by simp [pyValBeq]
  | .vdt _, .vfloat _ => by simp [pyValBeq]
  | .vdt _, .vbool _ => by simp [pyValBeq]
  | .vdt _, .vnone => by simp [pyValBeq]
  | .vdt _, .vna => by simp [pyValBeq]
  | .vdt _, .vlist _ => by simp [pyValBeq]
  | .vlist _, .vstr _ => by simp [pyValBeq]
  | .vlist _, .vint _ => by simp [pyValBeq]
  | .vlist _, .vfloat _ => by simp [pyValBeq]
  | .vlist _, .vbool _ => by simp [pyValBeq]
  | .vlist _, .vnone => by simp [pyValBeq]
  | .vlist _, .vna => by simp [pyValBeq]
  | .vlist _, .vdt _ => by simp [pyValBeq]

theorem pyValBeqList_iff : ∀ as bs : List PyVal, pyValBeqList as bs = true ↔ as = bs
  | [], [] => by simp [pyValBeqList]
  | x :: xs, y :: ys => by
      simp only [pyValBeqList, Bool.and_eq_true]
      rw [pyValBeq_iff x y, pyValBeqList_iff xs ys]
      constructor
      · rintro ⟨h1, h2⟩; rw [h1, h2]
      · intro h; cases h; exact ⟨rfl, rfl⟩
  | [], _ :: _ => by simp [pyValBeqList]
  | _ :: _, [] => by simp [pyValBeqList]

end

instance : DecidableEq PyVal := fun a b =>
  decidable_of_iff (pyValBeq a b = true) (pyValBeq_iff a b)

/-! ## Python string primitives used by `parse_value` (helpers.py:345-406) -/

/-- Prefix test on character lists. -/
def listIsPrefix : List Char → List Char → Bool
  | [], _ => true
  | _ :: _, [] => false
  | a :: as, b :: bs => a = b && listIsPrefix as bs

/-- Substring occurrence on character lists. -/
def subOccurs (needle : List Char) : List Char → Bool
  | [] => decide (needle = [])
  | c :: rest => listIsPrefix needle (c :: rest) || subOccurs needle rest

/-- Python's `needle in hay` substring test. -/
def pyInStr (needle hay : String) : Bool :=
  subOccurs needle.toList hay.toList

/-- Python whitespace as stripped by `str.strip` / `float`. -/
def pyWsChar (c : Char) : Bool :=
  c = ' ' ∨ c = '\t' ∨ c = '\n' ∨ c = '\r' ∨ c = '\x0b' ∨ c = '\x0c'

/-- Python's `str.strip()` with no arguments. -/
def pyStrip (s : String) : String :=
  String.mk (((s.toList.dropWhile pyWsChar).reverse.dropWhile pyWsChar).reverse)

/-- Python's `str.lower()` (via the per-character lowering that the ASCII
domain of this code base needs). -/
def pyToLower (s : String) : String :=
  String.mk (s.toList.map Char.toLower)

/-- Split a character list at every separator character. -/
def splitCharsAux (p : Char → Bool) : List Char → List Char → List (List Char)
  | [], acc => [acc.reverse]
  | c :: rest, acc =>
      if p c then acc.reverse :: splitCharsAux p rest []
      else splitCharsAux p rest (c :: acc)

/-- Split a string at every occurrence of a single character. -/
def pySplitOnChar (c : Char) (s : String) : List String :=
  (splitCharsAux (fun d => d = c) s.toList []).map String.mk

/-- `sep.join(parts)`. -/
def joinWith (sep : String) : List String → String
  | [] => ""
  | [x] => x
  | x :: xs => x ++ sep ++ joinWith sep xs

/-- Numeric value of an ASCII decimal digit.  These are the `Nd` digits
accepted by Python's `int()` within the modelled character set. -/
def asciiDigitVal (c : Char) : Option Nat :=
  if '0' ≤ c ∧ c ≤ '9' then some (c.toNat - 48) else none

/-- Superscript digit characters: Unicode `Numeric_Type=Digit` characters
for which `str.isdigit` is `True` but `int()` raises `ValueError`
(a faithful finite sample of that Unicode class). -/
def superscriptDigits : List Char :=
  ['⁰', '¹', '²', '³', '⁴', '⁵', '⁶', '⁷', '⁸', '⁹']

/-- One character of Python's `str.isdigit`: decimal digits plus
digit-typed characters such as superscripts. -/
def pyCharIsDigit (c : Char) : Bool :=
  (asciiDigitVal c).isSome || superscriptDigits.contains c

/-- Python's `str.isdigit`: nonempty and every character digit-typed. -/
def pyIsdigit (s : String) : Bool :=
  decide (0 < s.length) && s.toList.all pyCharIsDigit

/-- Value of a list of ASCII digits, most significant first. -/
def digitsVal (ds : List Char) : Nat :=
  ds.foldl (fun a c => a * 10 + (asciiDigitVal c).getD 0) 0

/-- Python's `int(s)` restricted to the strings that pass `str.isdigit`:
succeeds exactly on nonempty all-ASCII-decimal strings; superscript digits
make `int()` raise even though `isdigit` accepted them. -/
def pyIntOfString (s : String) : Option Int :=
  if 0 < s.length ∧ s.toList.all (fun c => (asciiDigitVal c).isSome) then
    some (Int.ofNat (digitsVal s.toList))
  else none

/-- The rational value `(ip + fp / 10 ^ fracLen) * 10 ^ e` of a decimal
literal with integer-part value `ip`, fraction digits of value `fp` and
length `fracLen`, and exponent `e`, built with `mkRat` so that it
evaluates by kernel reduction. -/
def decimalToRat (ip fp fracLen : Nat) (e : Int) : ℚ :=
  let mant : Nat := ip * 10 ^ fracLen + fp
  if 0 ≤ e then mkRat (Int.ofNat (mant * 10 ^ e.toNat)) (10 ^ fracLen)
  else mkRat (Int.ofNat mant) (10 ^ fracLen * 10 ^ (-e).toNat)

/-- Optional exponent suffix of a float literal: empty means exponent 0,
otherwise `e`/`E`, an optional sign and a nonempty digit run consuming the
whole remainder. -/
def parseFloatExp : List Char → Option Int
  | [] => some 0
  | c :: rest =>
      if c = 'e' ∨ c = 'E' then
        let (neg, ds) :=
          match rest with
          | '+' :: r => (false, r)
          | '-' :: r => (true, r)
          | r => (false, r)
        if 0 < ds.length ∧ ds.all (fun d => (asciiDigitVal d).isSome) then
          some (if neg then -(Int.ofNat (digitsVal ds)) else Int.ofNat (digitsVal ds))
        else none
      else none

/-- Unsigned part of a Python float literal: `digits [. digits]` or
`. digits`, with at least one digit overall, then an optional exponent. -/
def parseUnsignedFloat (cs : List Char) : Option ℚ :=
  let intPart := cs.takeWhile (fun c => (asciiDigitVal c).isSome)
  let rest1 := cs.dropWhile (fun c => (asciiDigitVal c).isSome)
  let core : Option (Nat × List Char × List Char) :=
    match rest1 with
    | '.' :: rest2 =>
        let fracPart := rest2.takeWhile (fun c => (asciiDigitVal c).isSome)
        let rest3 := rest2.dropWhile (fun c => (asciiDigitVal c).isSome)
        if intPart.length + fracPart.length = 0 then none
        else some (digitsVal intPart, fracPart, rest3)
    | rest =>
        if intPart.length = 0 then none else some (digitsVal intPart, [], rest)
  match core with
  | none => none
  | some (ip, fracPart, rest) =>
      match parseFloatExp rest with
      | none => none
      | some e => some (decimalToRat ip (digitsVal fracPart) fracPart.length e)

/-- Python's `float(s)`: strip whitespace, optional sign, then either a
decimal literal or the special words `inf`/`infinity`/`nan`
(case-insensitive).  Digit-group underscores are outside the modelled
domain. -/
def pyFloatOfString (s : String) : Option PyFloat :=
  let cs := (pyStrip s).toList
  let (neg, cs2) :=
    match cs with
    | '+' :: r => (false, r)
    | '-' :: r => (true, r)
    | r => (false, r)
  let low := String.mk (cs2.map Char.toLower)
  if low = "inf" ∨ low = "infinity" then some (.infty neg)
  else if low = "nan" then some .nanv
  else
    match parseUnsignedFloat cs2 with
    | some q => some (.finite (if neg then -q else q))
    | none => none

/-- Python's `float(value)` across types: strings are parsed, ints and
bools are widened, floats pass through, everything else raises `TypeError`
(returned as `none`; the call sites catch it). -/
def pyFloatOf : PyVal → Option PyFloat
  | .vstr s => pyFloatOfString s
  | .vint n => some (.finite (n : ℚ))
  | .vbool b => some (.finite (if b then 1 else 0))
  | .vfloat f => some f
  | _ => none

/-- `datetime.fromisoformat` on the `YYYY-MM-DDTHH:MM:SS` shape (the
fragment of the ISO grammar relevant here; `parse_value` only attempts it
on strings containing `"T"`). -/
def pyFromIsoformat (s : String) : Option PyDateTime :=
  match s.toList with
  | [y1, y2, y3, y4, '-', m1, m2, '-', d1, d2, 'T',
     h1, h2, ':', n1, n2, ':', s1, s2] =>
      match asciiDigitVal y1, asciiDigitVal y2, asciiDigitVal y3, asciiDigitVal y4,
            asciiDigitVal m1, asciiDigitVal m2, asciiDigitVal d1, asciiDigitVal d2,
            asciiDigitVal h1, asciiDigitVal h2, asciiDigitVal n1, asciiDigitVal n2,
            asciiDigitVal s1, asciiDigitVal s2 with
      | some a1, some a2, some a3, some a4, some b1, some b2, some c1, some c2,
        some e1, some e2, some f1, some f2, some g1, some g2 =>
          let y := ((a1 * 10 + a2) * 10 + a3) * 10 + a4
          let mo := b1 * 10 + b2
          let d := c1 * 10 + c2
          let h := e1 * 10 + e2
          let mi := f1 * 10 + f2
          let ss := g1 * 10 + g2
          if 1 ≤ mo ∧ mo ≤ 12 ∧ 1 ≤ d ∧ d ≤ 31 ∧ h < 24 ∧ mi < 60 ∧ ss < 60 then
            some ⟨y, mo, d, h, mi, ss⟩
          else none
      | _, _, _, _, _, _, _, _, _, _, _, _, _, _ => none
  | _ => none

/-- Digit run of bounded length as a number (for `strptime` fields). -/
def natField (lo hi : Nat) (s : String) : Option Nat :=
  if lo ≤ s.length ∧ s.length ≤ hi ∧ s.toList.all (fun c => (asciiDigitVal c).isSome) then
    some (digitsVal s.toList)
  else none

/-- JSON whitespace. -/
def jsonWs (c : Char) : Bool :=
  c = ' ' ∨ c = '\t' ∨ c = '\n' ∨ c = '\r'

/-- Drop leading JSON whitespace. -/
def skipWs (cs : List Char) : List Char :=
  cs.dropWhile jsonWs

/-- Body of a JSON string literal after the opening quote (escape
sequences are outside the modelled domain). -/
def jsonStringBody : List Char → Option (String × List Char)
  | [] => none
  | '"' :: rest => some ("", rest)
  | '\\' :: _ => none
  | c :: rest =>
      match jsonStringBody rest with
      | some (s, r) => some (String.mk (c :: s.toList), r)
      | none => none

/-- Optional exponent part of a JSON number, returning the unconsumed
remainder; `some (none, cs)` means no exponent present. -/
def jsonExpPart (cs : List Char) : Option (Option Int × List Char) :=
  match cs with
  | c :: rest =>
      if c = 'e' ∨ c = 'E' then
        let (neg, ds0) :=
          match rest with
          | '+' :: r => (false, r)
          | '-' :: r => (true, r)
          | r => (false, r)
        let ds := ds0.takeWhile (fun d => (asciiDigitVal d).isSome)
        let r2 := ds0.dropWhile (fun d => (asciiDigitVal d).isSome)
        if ds.length = 0 then none
        else some (some (if neg then -(Int.ofNat (digitsVal ds)) else Int.ofNat (digitsVal ds)), r2)
      else some (none, cs)
  | [] => some (none, [])

/-- A JSON number (with JSON's no-leading-zero rule); integers decode to
Python `int`, anything with a fraction or exponent to Python `float`. -/
def jsonNumber (cs : List Char) : Option (PyVal × List Char) :=
  let (neg, cs1) :=
    match cs with
    | '-' :: r => (true, r)
    | r => (false, r)
  let ip := cs1.takeWhile (fun d => (asciiDigitVal d).isSome)
  let r1 := cs1.dropWhile (fun d => (asciiDigitVal d).isSome)
  if ip.length = 0 then none
  else if 1 < ip.length ∧ ip.headD '0' = '0' then none
  else
    match r1 with
    | '.' :: r2 =>
        let fp := r2.takeWhile (fun d => (asciiDigitVal d).isSome)
        let r3 := r2.dropWhile (fun d => (asciiDigitVal d).isSome)
        if fp.length = 0 then none
        else
          match jsonExpPart r3 with
          | none => none
          | some (eo, r4) =>
              let q := decimalToRat (digitsVal ip) (digitsVal fp) fp.length (eo.getD 0)
              some (.vfloat (.finite (if neg then -q else q)), r4)
    | _ =>
        match jsonExpPart r1 with
        | none => none
        | some (some e, r4) =>
            let q := decimalToRat (digitsVal ip) 0 0 e
            some (.vfloat (.finite (if neg then -q else q)), r4)
        | some (none, r4) =>
            let n : Int := Int.ofNat (digitsVal ip)
            some (.vint (if neg then -n else n), r4)

mutual

/-- Recursive-descent JSON value (fuelled; the fuel is a bound on nesting
depth and is always instantiated above the input length), producing the
Python value `json.loads` would return. -/
def jsonValue : Nat → List Char → Option (PyVal × List Char)
  | 0, _ => none
  | fuel + 1, cs =>
      match skipWs cs with
      | '"' :: rest =>
          match jsonStringBody rest with
          | some (s, r) => some (.vstr s, r)
          | none => none
      | '[' :: rest =>
          match skipWs rest with
          | ']' :: r2 => some (.vlist [], r2)
          | cs2 =>
              match jsonItems fuel cs2 with
              | some (items, r2) => some (.vlist items, r2)
              | none => none
      | 't' :: 'r' :: 'u' :: 'e' :: rest => some (.vbool true, rest)
      | 'f' :: 'a' :: 'l' :: 's' :: 'e' :: rest => some (.vbool false, rest)
      | 'n' :: 'u' :: 'l' :: 'l' :: rest => some (.vnone, rest)
      | cs1 => jsonNumber cs1

/-- Comma-separated JSON array items up to the closing bracket. -/
def jsonItems : Nat → List Char → Option (List PyVal × List Char)
  | 0, _ => none
  | fuel + 1, cs =>
      match jsonValue fuel cs with
      | none => none
      | some (v, rest) =>
          match skipWs rest with
          | ',' :: r2 =>
              match jsonItems fuel r2 with
              | some (vs, r3) => some (v :: vs, r3)
              | none => none
          | ']' :: r2 => some ([v], r2)
          | _ => none

end

/-- `json.loads` on the modelled JSON fragment: the whole string must be
one JSON value up to surrounding whitespace. -/
def jsonDecode (s : String) : Option PyVal :=
  match jsonValue (s.length + 1) s.toList with
  | some (v, rest) => if (skipWs rest).isEmpty then some v else none
  | none => none

/-- `datetime.strptime(value, "%m/%d/%Y %I:%M %p")`. -/
def pyStrptimeUS (s : String) : Option PyDateTime :=
  match pySplitOnChar ' ' s with
  | [datePart, timePart, half] =>
      match pySplitOnChar '/' datePart, pySplitOnChar ':' timePart with
      | [ms, ds, ys], [hs, ns] =>
          match natField 1 2 ms, natField 1 2 ds, natField 4 4 ys,
                natField 1 2 hs, natField 2 2 ns with
          | some mo, some d, some y, some h, some mi =>
              if 1 ≤ mo ∧ mo ≤ 12 ∧ 1 ≤ d ∧ d ≤ 31 ∧ 1 ≤ h ∧ h ≤ 12 ∧ mi < 60
                  ∧ (half = "AM" ∨ half = "PM") then
                let h24 :=
                  if half = "AM" then (if h = 12 then 0 else h)
                  else (if h = 12 then 12 else h + 12)
                some ⟨y, mo, d, h24, mi, 0⟩
              else none
          | _, _, _, _, _ => none
      | _, _ => none
  | _ => none

/-! ## `parse_value` (helpers.py:345-406)

The checks are applied in the source's order: null-likeness, lists
(elementwise recursion), booleans, digit-only integers, floats, ISO
timestamps (only for strings containing `"T"`), the `MM/DD/YYYY hh:mm
AM/PM` pattern (only for strings containing `"AM"` or `"PM"`), embedded
JSON lists, and finally the unchanged value.  The function is fuelled
because the JSON branch can re-enter `parse_value` on decoded elements;
fuel exhaustion models Python's `RecursionError`.  The `int` branch is
guarded by `str.isdigit` but converts with `int()`, whose `ValueError`
(raised e.g. on superscript digits) is **not** caught by the
`except AttributeError` handler and escapes. -/

/-- Sequence elementwise `parse_value` results, propagating the first
exception in element order, as the Python list comprehension does. -/
def exceptSeq : List (Except String PyVal) → Except String (List PyVal)
  | [] => .ok []
  | x :: xs =>
      match x with
      | .error e => .error e
      | .ok a =>
          match exceptSeq xs with
          | .ok as => .ok (a :: as)
          | .error e => .error e

/-- One step of `parse_value`: the full ordered chain of checks, with
`ih` standing for the recursive call available to the list and
embedded-JSON-list branches. -/
def parseValueStep (ih : PyVal → Except String PyVal) (v : PyVal) :
    Except String PyVal :=
  match v with
  | .vlist items =>
      match exceptSeq (items.map ih) with
      | .ok parsed => .ok (.vlist parsed)
      | .error e => .error e
  | .vstr s =>
      if s = "" ∨ s = "null" ∨ s = "None" then .ok .vnone
      else if pyToLower s = "true" then .ok (.vbool true)
      else if pyToLower s = "false" then .ok (.vbool false)
      else if pyIsdigit s then
        match pyIntOfString s with
        | some n => .ok (.vint n)
        | none => .error ("ValueError: invalid literal for int() with base 10: " ++ s)
      else
        match pyFloatOfString s with
        | some f => .ok (.vfloat f)
        | none =>
            match (if pyInStr "T" s then pyFromIsoformat s else none) with
            | some d => .ok (.vdt d)
            | none =>
                match (if pyInStr "AM" s || pyInStr "PM" s then pyStrptimeUS s else none) with
                | some d => .ok (.vdt d)
                | none =>
                    match jsonDecode s with
                    | some (.vlist items) =>
                        match exceptSeq (items.map ih) with
                        | .ok parsed => .ok (.vlist parsed)
                        | .error e => .error e
                    | _ => .ok (.vstr s)
  | other =>
      match pyFloatOf other with
      | some f => .ok (.vfloat f)
      | none => .ok other

/-- `parse_value` with recursion fuel, by primitive recursion on the fuel
(fuel exhaustion models Python's `RecursionError`). -/
def parseValueF (fuel : Nat) : PyVal → Except String PyVal :=
  @Nat.rec (fun _ => PyVal → Except String PyVal)
    (fun _ => .error "RecursionError: maximum recursion depth exceeded")
    (fun _ ih => parseValueStep ih)
    fuel

theorem parseValueF_succ (fuel : Nat) :
    parseValueF (fuel + 1) = parseValueStep (parseValueF fuel) := rfl

/-- `parse_value`, at Python's default recursion limit. -/
def parse_value (v : PyVal) : Except String PyVal :=
  parseValueF 1000 v

/-! ## DataFrames, `table_to_dataframe` (helpers.py:409-429) and
`stack_dataframes` (helpers.py:435-477)

A pandas DataFrame is modelled as its ordered column-label list and its
row-major cells (the integer row index, reset by `ignore_index=True`, is
not modelled).  Column labels in this code base are table cells, so they
share the `PyVal` type; the modelled domain has duplicate-free column
lists. -/

structure DataFrame where
  cols : List PyVal
  rows : List (List PyVal)
deriving DecidableEq, Repr

/-- Python's `isinstance(row, list)`. -/
def isVlist : PyVal → Bool
  | .vlist _ => true
  | _ => false

/-- The underlying list of a list value. -/
def asVlist : PyVal → List PyVal
  | .vlist l => l
  | _ => []

/-- `table_to_dataframe`: a list of lists with more than one row becomes a
DataFrame with row 0 as the column labels; anything else prints a warning
and returns an empty DataFrame.  The embedded `pd.DataFrame(data_rows,
columns=headers)` pads ragged rows with missing values up to the widest
row and raises `ValueError` when the header length differs from that
width. -/
def table_to_dataframe (table_data : PyVal) : Except String DataFrame :=
  match table_data with
  | .vlist items =>
      if 1 < items.length ∧ items.all isVlist then
        match items with
        | hd :: tl =>
            let headers := asVlist hd
            let dataRows := tl.map asVlist
            let width := (dataRows.map List.length).foldl Nat.max 0
            if headers.length = width then
              .ok ⟨headers, dataRows.map (fun r => r ++ List.replicate (width - r.length) .vna)⟩
            else
              .error ("ValueError: " ++ toString headers.length
                      ++ " columns passed, passed data had " ++ toString width ++ " columns")
        | [] => .ok ⟨[], []⟩
      else .ok ⟨[], []⟩
  | _ => .ok ⟨[], []⟩

/-- Append the unseen elements of `cs` to `acc`, preserving first-seen
order (the `OrderedDict` superset computation, and `pd.concat`'s
`sort=False` outer column union). -/
def orderedUnionInto (acc : List PyVal) (cs : List PyVal) : List PyVal :=
  cs.foldl (fun a c => if c ∈ a then a else a ++ [c]) acc

/-- First-seen-order union of several column lists. -/
def orderedUnion (ls : List (List PyVal)) : List PyVal :=
  ls.foldl orderedUnionInto []

/-- `set(df.columns) == set(columns)`. -/
def sameColSet (a b : List PyVal) : Bool :=
  a.all (fun c => decide (c ∈ b)) && b.all (fun c => decide (c ∈ a))

/-- The in-place effect of the non-strict loop body: `df[col] = pd.NA` for
each target column not already present appends that column, filled with
missing values, to the caller's DataFrame object. -/
def addMissing (cols : List PyVal) (df : DataFrame) : DataFrame :=
  cols.foldl
    (fun d c =>
      if c ∈ d.cols then d
      else ⟨d.cols ++ [c], d.rows.map (fun r => r ++ [.vna])⟩)
    df

/-- Index of the first occurrence of a column label. -/
def colIdx : List PyVal → PyVal → Option Nat
  | [], _ => none
  | x :: xs, c => if x = c then some 0 else (colIdx xs c).map (· + 1)

/-- Column selection / reindexing `df[columns]`: each output row lists the
cells of the requested columns (missing columns yield missing values,
which never happens at the call sites because missing columns were added
first). -/
def selectCols (cols : List PyVal) (df : DataFrame) : DataFrame :=
  ⟨cols,
   df.rows.map (fun r =>
     cols.map (fun c =>
       match colIdx df.cols c with
       | some k => r.getD k .vna
       | none => .vna))⟩

/-- `pd.concat(dfs, ignore_index=True)`: raises on an empty list;
otherwise aligns every frame by column name to the first-seen-order union
of the column lists and stacks the rows in input order. -/
def pdConcat (dfs : List DataFrame) : Except String DataFrame :=
  match dfs with
  | [] => .error "ValueError: No objects to concatenate"
  | _ =>
      let target := orderedUnion (dfs.map DataFrame.cols)
      .ok ⟨target, (dfs.map (fun df => (selectCols target df).rows)).flatten⟩

/-- The column list `stack_dataframes` works against: the `columns`
argument if given, otherwise the `OrderedDict` first-seen union of every
input frame's columns. -/
def stackTargetCols (dataframes : List DataFrame) (columns : Option (List PyVal)) :
    List PyVal :=
  match columns with
  | some cs => cs
  | none => orderedUnion (dataframes.map DataFrame.cols)

/-- `stack_dataframes`.  The returned pair is the aggregated frame
together with the post-call state of the caller's input DataFrame objects
(which the non-strict branch mutates in place via `df[col] = pd.NA`). -/
def stack_dataframes (dataframes : List DataFrame) (columns : Option (List PyVal))
    (strict : Bool) : Except String (DataFrame × List DataFrame) :=
  let cols := stackTargetCols dataframes columns
  if strict then
    if dataframes.any (fun df => !(sameColSet df.cols cols)) then
      .error "ValueError: Dataframe columns do not match the specified columns."
    else
      match pdConcat dataframes with
      | .ok res => .ok (res, dataframes)
      | .error e => .error e
  else
    let post := dataframes.map (addMissing cols)
    let processed := post.map (selectCols cols)
    match pdConcat processed with
    | .ok res => .ok (res, post)
    | .error e => .error e

/-! ## `make_request` (helpers.py:44-115)

Single-request mode.  The vendor session is abstracted as an oracle
giving, for the `n`-th `get_response` call, what that call produced:
nothing (`get_response` returned `None` after a `RequestFailure`), an
`errorResponse` message, a well-formed `cmpExcelResponse` (its
`results[*].fields` name/value pairs), or JSON without a
`cmpExcelResponse` key. -/

/-- Result of one `get_response` call. -/
inductive GetResp where
  | failed
  | errorResponse (msg : String)
  | excel (results : List (List (String × String)))
  | otherJson (text : String)
deriving DecidableEq, Repr

/-- Association lookup for string keys (Python dict access). -/
def slookup {α : Type} : List (String × α) → String → Option α
  | [], _ => none
  | (k, v) :: rest, key => if k = key then some v else slookup rest key

/-- Association update for string keys (Python dict assignment). -/
def supsert {α : Type} : List (String × α) → String → α → List (String × α)
  | [], key, v => [(key, v)]
  | (k, w) :: rest, key, v =>
      if k = key then (k, v) :: rest else (k, w) :: supsert rest key v

/-- The errors `make_request` can raise. -/
inductive MErr where
  | cmpError (msg : String)
  | invalidResponse (msg : String)
  | timeoutError (msg : String)
  | uncaughtParse (msg : String)
deriving DecidableEq, Repr

/-- The flattening dict comprehension over `results[*].fields`; with
`parse_response` every value goes through `parse_value`, whose escape
(e.g. on superscript digits) propagates out of `make_request`. -/
def buildOutput (parse : Bool) (results : List (List (String × String))) :
    Except String (List (String × PyVal)) :=
  (results.map id).flatten.foldlM
    (fun acc p =>
      if parse then
        match parse_value (.vstr p.2) with
        | .ok v => .ok (supsert acc p.1 v)
        | .error e => .error e
      else .ok (supsert acc p.1 (.vstr p.2)))
    []

instance {ε α : Type} [DecidableEq ε] [DecidableEq α] : DecidableEq (Except ε α) :=
  fun x y =>
    match x, y with
    | .error a, .error b =>
        if h : a = b then isTrue (by rw [h])
        else isFalse (by intro hh; cases hh; exact h rfl)
    | .ok a, .ok b =>
        if h : a = b then isTrue (by rw [h])
        else isFalse (by intro hh; cases hh; exact h rfl)
    | .error _, .ok _ => isFalse (fun hh => Except.noConfusion hh)
    | .ok _, .error _ => isFalse (fun hh => Except.noConfusion hh)

/-- A `make_request` run: its result plus the ghost observations needed by
the claims — the backoff sleeps performed (seconds) and the number of
`get_response` calls (= submissions) made. -/
structure MRRun where
  result : Except MErr (List (String × PyVal))
  sleeps : List Nat
  calls : Nat
deriving DecidableEq, Repr

/-- The `for attempt in range(retries)` loop of `make_request`; the fuel
is the remaining iteration count (initially 3). -/
def mrLoop (oracle : Nat → GetResp) (parse : Bool) :
    Nat → Nat → List Nat → Nat → MRRun
  | _, 0, sleeps, calls =>
      ⟨.error (.timeoutError "Failed to receive a valid response after multiple attempts."),
       sleeps, calls⟩
  | attempt, fuel + 1, sleeps, calls =>
      match oracle attempt with
      | .failed => mrLoop oracle parse (attempt + 1) fuel sleeps (calls + 1)
      | .errorResponse m =>
          if pyInStr "Limit reached" m then
            mrLoop oracle parse (attempt + 1) fuel (sleeps ++ [1]) (calls + 1)
          else ⟨.error (.cmpError m), sleeps, calls + 1⟩
      | .otherJson text =>
          ⟨.error (.invalidResponse ("Invalid response: " ++ text)), sleeps, calls + 1⟩
      | .excel results =>
          match buildOutput parse results with
          | .ok out => ⟨.ok out, sleeps, calls + 1⟩
          | .error e => ⟨.error (.uncaughtParse e), sleeps, calls + 1⟩

/-- `make_request` with its hard-coded `retries = 3`. -/
def make_request (oracle : Nat → GetResp) (parse : Bool) : MRRun :=
  mrLoop oracle parse 0 3 [] 0

/-! ## `run_AssetRequest` (helpers.py:480-585)

The orchestrator.  Network interaction is abstracted as an oracle listing,
for each security in order, what `make_request` produced for it: `.ok` a
response dict (field name to parsed value) or `.error` the raised
exception's text. -/

/-- `",".join([field for field in field_list if field.strip()])`. -/
def formatFieldList (field_list : List String) : String :=
  joinWith "," (field_list.filter (fun f => pyStrip f ≠ ""))

/-- `re.split(r"[;,]", collateral_report)` with trimming and truthiness
filtering. -/
def splitReports (collateral_report : String) : List String :=
  (((splitCharsAux (fun c => c = ';' ∨ c = ',') collateral_report.toList []).map
      (fun l => pyStrip (String.mk l)))).filter (fun r => r ≠ "")

/-- The request dict built for one security (values already stringified as
`str(...)` does). -/
def buildAssetRequest (sec : String) (factor_date : Option Int) (include_paiddown : Bool)
    (ffl fr : String) : List (String × String) :=
  [("security", sec), ("show_headers", "True"), ("operation", "Assets"),
   ("include_zero_balance", if include_paiddown then "True" else "False")]
  ++ (match factor_date with
      | some fd => [("factor_date", toString fd)]
      | none => [])
  ++ (if ffl ≠ "" then [("fields", ffl)] else [])
  ++ (if fr ≠ "" then [("collateral_reports", fr)] else [])

/-- The body of the per-security `try` block after `make_request`
succeeded: `response[report]` / `response["assets"]` (a `KeyError` is
caught by the `except`), then `table_to_dataframe` (whose `ValueError`
is likewise caught).  `none` means the security is skipped after a printed
message. -/
def processSecurity (report : String) (r : Except String (List (String × PyVal))) :
    Option DataFrame :=
  match r with
  | .error _ => none
  | .ok resp =>
      match slookup resp (if 0 < report.length then report else "assets") with
      | none => none
      | some data =>
          match table_to_dataframe data with
          | .error _ => none
          | .ok df => some df

/-- The response loop plus the final `stack_dataframes(dataframes)` call
(columns `None`, `strict` false); only the aggregated frame is returned. -/
def assetResponseLoop (report : String)
    (oracle : List (Except String (List (String × PyVal)))) : Except String DataFrame :=
  match stack_dataframes (oracle.filterMap (processSecurity report)) none false with
  | .ok (res, _) => .ok res
  | .error e => .error e

/-- `run_AssetRequest`.  `factor_date` is modelled on its integer path
(the string/datetime conversions normalise to this); `oracle` gives
`make_request`'s outcome for each security of `security_list` in order. -/
def run_AssetRequest (security_list : List String) (factor_date : Option Int)
    (include_paiddown : Bool) (field_list : List String) (collateral_report : String)
    (oracle : List (Except String (List (String × PyVal)))) : Except String DataFrame :=
  let _ffl := formatFieldList field_list
  let _reqs := security_list.map
    (fun sec => buildAssetRequest sec factor_date include_paiddown _ffl collateral_report)
  if collateral_report ≠ "" then
    let reports := splitReports collateral_report
    if 1 < reports.length then
      .error "ValueError: Only one collateral report should be listed."
    else
      match reports with
      | [] => .error "IndexError: list index out of range"
      | fr :: _ => assetResponseLoop fr oracle
  else assetResponseLoop "" oracle

/-! ## The top-level call in `fetch.py` (lines 39-48)

Python binds call arguments before executing the callee's body; a keyword
argument that is not a parameter name of a function without `**kwargs`
raises `TypeError` at the call site, before any code of the callee (and
hence any request construction or sending) runs. -/

/-- Parameter names of `run_AssetRequest` (helpers.py:480-488). -/
def runAssetRequestParams : List String :=
  ["session", "service", "security_list", "factor_date", "include_paiddown",
   "field_list", "collateral_report"]

/-- Keyword arguments passed by `fetch.py` (lines 43-47), after the three
positional arguments `session, service, security_list`. -/
def fetchCallKeywords : List String :=
  ["factor_date", "include_paiddown", "field_list", "collateral_report",
   "error_log_file"]

/-- The unexpected-keyword rule of Python call binding for a function
without `**kwargs`. -/
def pyBindKeywords (fname : String) (params kwargs : List String) : Except String Unit :=
  match kwargs.filter (fun k => !(params.contains k)) with
  | [] => .ok ()
  | k :: _ =>
      .error ("TypeError: " ++ fname ++ "() got an unexpected keyword argument " ++ k)

/-- One iteration of the `fetch.py` report loop: bind the
`run_AssetRequest` call, and only if binding succeeds run the body. -/
def fetchLoopInvoke (security_list : List String) (collateral_report : String)
    (oracle : List (Except String (List (String × PyVal)))) : Except String DataFrame :=
  match pyBindKeywords "run_AssetRequest" runAssetRequestParams fetchCallKeywords with
  | .error e => .error e
  | .ok _ => run_AssetRequest security_list none false [] collateral_report oracle

/-! ## `make_multiple_requests` (helpers.py:118-318)

Batch mode.  The `K` requests are sent up front with `CorrelationId(i)`
for submission index `i`, so `corr_mapping` maps value `i` to index `i`
for `0 ≤ i < K` and never changes afterwards (a throttle retry re-sends
`CorrelationId(corr_id_int)`, the same integer value).  The session is
abstracted as the list of `(elapsed, event)` pairs the driving loop
observes: the `Nat` is the value of `time.time() - start_time` at the top
of that loop iteration, and the event is what `session.nextEvent(1000)`
then returns.  `some` results are the runs that finish within the modelled
trace; `none` means the trace ended with requests still pending. -/

/-- A terminal outcome recorded for one submission index: the flattened
raw field mapping together with the `_request_order` entry added to the
dict (modelled as the `requestOrder` component), or the stored exception's
text. -/
inductive Outcome where
  | success (fields : List (String × String)) (requestOrder : Nat)
  | failure (err : String)
deriving DecidableEq, Repr

/-- Message payload of a partial/full response without an
`errorResponse` element: a well-formed `cmpExcelResponse`, JSON of another
shape, or data whose extraction/decoding raised (caught by the inner
`try`). -/
inductive MsgPayload where
  | excelResults (results : List (List (String × String)))
  | otherJson (text : String)
  | malformed (err : String)
deriving DecidableEq, Repr

/-- A message inside a session event: its correlation-id values, message
type, optional `errorResponse` message, payload and `toString` text. -/
structure BMsg where
  corrIds : List Int
  msgType : String
  hasError : Bool
  errMsg : String
  payload : MsgPayload
  text : String
deriving DecidableEq, Repr

/-- Event type as tested by the loop (`PARTIAL_RESPONSE`, `RESPONSE`, or
anything else such as `TIMEOUT`). -/
inductive EvType where
  | partialResponse
  | response
  | otherEvent
deriving DecidableEq, Repr

/-- One event returned by `session.nextEvent`. -/
structure BEvent where
  etype : EvType
  msgs : List BMsg
deriving DecidableEq, Repr

/-- Loop state: the pending index set, `responses`, `retry_counts`, and
ghost observations — per-index count of `responses[...] = ...` assignments,
the correlation-id values re-sent on throttle retries, and the sleeps
performed. -/
structure BState where
  pending : List Nat
  responses : List (Nat × Outcome)
  retryCounts : List (Nat × Nat)
  writes : List (Nat × Nat)
  resent : List Nat
  slept : List Nat
deriving DecidableEq, Repr

/-- Record a terminal outcome: assign `responses[i]` and remove `i` from
the pending set (every assignment in the source is immediately paired with
the removal). -/
def recordTerminal (st : BState) (i : Nat) (o : Outcome) : BState :=
  { st with
    responses := aupsert st.responses i o
    pending := st.pending.filter (fun j => j ≠ i)
    writes := aupsert st.writes i (alookupD st.writes i 0 + 1) }

/-- `output.update(...)` over `results[*].fields` in the batch success
branch (raw values, no parsing; later duplicates overwrite). -/
def buildBatchOutput (results : List (List (String × String))) : List (String × String) :=
  results.foldl (fun acc fields => fields.foldl (fun a p => supsert a p.1 p.2) acc) []

/-- Processing of one message (helpers.py:208-313). -/
def processMsg (K maxRetries retryDelay : Nat) (etype : EvType) (st : BState)
    (m : BMsg) : BState :=
  match m.corrIds with
  | [] => st
  | cid :: _ =>
      if 0 ≤ cid ∧ cid < (K : Int) then
        let i := cid.toNat
        if i ∈ st.pending then
          if m.msgType = "RequestFailure" then
            recordTerminal st i (.failure ("RequestFailure: " ++ m.text))
          else if etype = .partialResponse ∨ etype = .response then
            if m.hasError then
              if pyInStr "Limit reached" m.errMsg then
                if alookupD st.retryCounts i 0 < maxRetries then
                  { st with
                    retryCounts := aupsert st.retryCounts i (alookupD st.retryCounts i 0 + 1)
                    slept := st.slept ++ [retryDelay]
                    resent := st.resent ++ [i] }
                else
                  recordTerminal st i
                    (.failure ("Throttle limit reached after " ++ toString maxRetries
                               ++ " retries."))
              else recordTerminal st i (.failure m.errMsg)
            else
              match m.payload with
              | .excelResults results =>
                  recordTerminal st i (.success (buildBatchOutput results) i)
              | .otherJson text =>
                  recordTerminal st i (.failure ("Unexpected response format: " ++ text))
              | .malformed err => recordTerminal st i (.failure err)
          else st
        else st
      else st

/-- Fold one event's messages through the loop body (the event type is
computed once per event). -/
def stepEvent (K maxRetries retryDelay : Nat) (st : BState) (ev : BEvent) : BState :=
  ev.msgs.foldl (processMsg K maxRetries retryDelay ev.etype) st

/-- How a batch run can fail: the `Exception("Request timed out")` raise,
tagged with the elapsed value that triggered it, or the `KeyError` the
final list comprehension would raise on a missing index (proved
unreachable below). -/
inductive BErr where
  | timedOut (elapsed : Nat)
  | keyError
deriving DecidableEq, Repr

/-- `[responses[i] for i in range(K)]`: `none` models the `KeyError` on a
missing index. -/
def collectResponses (resp : List (Nat × Outcome)) : List Nat → Option (List Outcome)
  | [] => some []
  | i :: is =>
      match alookup resp i, collectResponses resp is with
      | some o, some os => some (o :: os)
      | _, _ => none

/-- The ordered reassembly after the loop exits. -/
def assemble (K : Nat) (st : BState) : Except BErr (List Outcome) :=
  match collectResponses st.responses (List.range K) with
  | some lst => .ok lst
  | none => .error .keyError

/-- The `while pending:` loop.  Each iteration first checks
`elapsed > timeout` and raises, otherwise consumes the next event. -/
def runLoop (K timeout maxRetries retryDelay : Nat) (evs : List (Nat × BEvent))
    (st : BState) : Option (Except BErr (List Outcome) × BState) :=
  if st.pending.isEmpty then some (assemble K st, st)
  else
    match evs with
    | [] => none
    | (t, ev) :: rest =>
        if timeout < t then some (.error (.timedOut t), st)
        else runLoop K timeout maxRetries retryDelay rest
          (stepEvent K maxRetries retryDelay st ev)

/-- Initial state after the send loop: all `K` indices pending, no
responses, `retry_counts[i] = 0` for each index. -/
def initState (K : Nat) : BState :=
  { pending := List.range K
    responses := []
    retryCounts := (List.range K).map (fun i => (i, 0))
    writes := []
    resent := []
    slept := [] }

/-- `make_multiple_requests` for a batch of `K` requests, returning the
result together with the final loop state. -/
def make_multiple_requests (K timeout maxRetries retryDelay : Nat)
    (events : List (Nat × BEvent)) : Option (Except BErr (List Outcome) × BState) :=
  runLoop K timeout maxRetries retryDelay events (initState K)

/-! ## Basic lemmas about the embedding's containers -/

theorem alookup_aupsert_self {α : Type} (l : List (Nat × α)) (i : Nat) (v : α) :
    alookup (aupsert l i v) i = some v := by
  induction l with
  | nil => simp [aupsert, alookup]
  | cons hd tl ih =>
      rcases hd with ⟨k, w⟩
      by_cases h : k = i <;> simp [aupsert, alookup, h, ih]

theorem alookup_aupsert_ne {α : Type} (l : List (Nat × α)) (i j : Nat) (v : α)
    (h : j ≠ i) : alookup (aupsert l i v) j = alookup l j := by
  have hij : i ≠ j := fun hh => h hh.symm
  induction l with
  | nil => simp [aupsert, alookup, hij]
  | cons hd tl ih =>
      rcases hd with ⟨k, w⟩
      by_cases hk : k = i
      · subst hk
        simp [aupsert, alookup, hij]
      · simp [aupsert, alookup, hk, ih]

theorem mem_filter_ne (l : List Nat) (i j : Nat) :
    j ∈ l.filter (fun x => x ≠ i) ↔ j ∈ l ∧ j ≠ i := by
  simp [List.mem_filter]

/-- The guard of `table_to_dataframe`: a list of lists with more than one
row. -/
def tableShaped : PyVal → Bool
  | .vlist items => decide (1 < items.length) && items.all isVlist
  | _ => false

theorem foldl_max_const (xs : List Nat) (L : Nat) :
    ∀ a, (∀ x ∈ xs, x = L) → xs ≠ [] → xs.foldl Nat.max a = Nat.max a L := by
  induction xs with
  | nil => intro a _ hne; exact absurd rfl hne
  | cons x rest ih =>
      intro a hall _
      have hx : x = L := hall x (by simp)
      rcases rest with _ | ⟨y, t⟩
      · simp only [List.foldl]
        rw [hx]
      · have hrec := ih (Nat.max a x)
          (fun z hz => hall z (List.mem_cons_of_mem x hz)) (by simp)
        simp only [List.foldl] at hrec ⊢
        rw [hrec, hx]
        simp only [Nat.max_def]
        repeat' split
        all_goals omega

/-! ## Claim C10 -/

/-- Claim C10: every invocation of `run_AssetRequest` from the `fetch.py`
report loop raises `TypeError` (unexpected keyword argument
`error_log_file`) at call-binding time, before any request is built or
sent — the result is the same `TypeError` for every security list, report
name and network behaviour, because `error_log_file` is among the call's
keyword arguments but not among `run_AssetRequest`'s parameters. -/
theorem C10_fetch_call_raises :
    ("error_log_file" ∈ fetchCallKeywords ∧ "error_log_file" ∉ runAssetRequestParams)
    ∧ ∀ (security_list : List String) (collateral_report : String)
        (oracle : List (Except String (List (String × PyVal)))),
        fetchLoopInvoke security_list collateral_report oracle =
          .error "TypeError: run_AssetRequest() got an unexpected keyword argument error_log_file" := by
  refine ⟨⟨by decide, by decide⟩, ?_⟩
  intro security_list collateral_report oracle
  rfl

/-! ## Claim C6 -/

/-- Claim C6 counterexample: `table_to_dataframe` does not return on every
input — on the list-of-lists table `[["a", "b"], ["1"]]` (two rows, one
header cell short in the data row) the guard passes but the embedded
`pd.DataFrame(data_rows, columns=headers)` raises
`ValueError: 2 columns passed, passed data had 1 columns`, so the claim's
"for every input ... returns without raising" is false. -/
theorem C6_counterexample :
    table_to_dataframe (.vlist [.vlist [.vstr "a", .vstr "b"], .vlist [.vstr "1"]])
      = .error "ValueError: 2 columns passed, passed data had 1 columns" := by
  rfl

theorem table_to_dataframe_shaped (hd : List PyVal) (tl : List PyVal)
    (h1 : 1 < (PyVal.vlist hd :: tl).length)
    (h2 : (PyVal.vlist hd :: tl).all isVlist = true) :
    table_to_dataframe (.vlist (.vlist hd :: tl)) =
      (if hd.length = ((tl.map asVlist).map List.length).foldl Nat.max 0 then
        .ok ⟨hd, (tl.map asVlist).map
          (fun r => r ++ List.replicate
            ((((tl.map asVlist).map List.length).foldl Nat.max 0) - r.length) .vna)⟩
      else
        .error ("ValueError: " ++ toString hd.length ++ " columns passed, passed data had "
                ++ toString (((tl.map asVlist).map List.length).foldl Nat.max 0)
                ++ " columns")) := by
  simp only [table_to_dataframe]
  rw [if_pos ⟨h1, h2⟩]
  rfl

/-- Claim C6 (amended): `table_to_dataframe` never raises on input that is
not a list of lists with at least two rows — it returns the empty table —
and on shaped input whose data rows all match the header width it returns
row 0 as the column labels and the remaining rows as data; but when the
header length differs from the (maximal) data-row width, the underlying
DataFrame construction raises `ValueError` instead of returning. -/
theorem C6_amended :
    (∀ v : PyVal, tableShaped v = false → table_to_dataframe v = .ok ⟨[], []⟩)
    ∧ (∀ hd tl, tableShaped (.vlist (.vlist hd :: tl)) = true →
        (∀ r ∈ tl, (asVlist r).length = hd.length) →
        table_to_dataframe (.vlist (.vlist hd :: tl)) = .ok ⟨hd, tl.map asVlist⟩)
    ∧ (∀ hd tl, tableShaped (.vlist (.vlist hd :: tl)) = true →
        hd.length ≠ ((tl.map asVlist).map List.length).foldl Nat.max 0 →
        ∃ e, table_to_dataframe (.vlist (.vlist hd :: tl)) = .error e) := by
  refine ⟨?_, ?_, ?_⟩
  · intro v hv
    cases v with
    | vlist items =>
        simp only [tableShaped, Bool.and_eq_false_iff, decide_eq_false_iff_not] at hv
        simp only [table_to_dataframe]
        rw [if_neg]
        rintro ⟨h1, h2⟩
        rcases hv with hv | hv
        · exact hv h1
        · rw [hv] at h2; cases h2
    | vstr s => rfl
    | vint n => rfl
    | vfloat f => rfl
    | vbool b => rfl
    | vnone => rfl
    | vna => rfl
    | vdt d => rfl
  · intro hd tl hshape hrows
    simp only [tableShaped, Bool.and_eq_true, decide_eq_true_eq] at hshape
    have htl : tl ≠ [] := by
      intro h; subst h; simp at hshape
    have hwidth : ((tl.map asVlist).map List.length).foldl Nat.max 0 = hd.length := by
      have hall : ∀ x ∈ (tl.map asVlist).map List.length, x = hd.length := by
        intro x hx
        simp only [List.map_map, List.mem_map, Function.comp] at hx
        rcases hx with ⟨r0, hr0, hxr⟩
        rw [← hxr]
        exact hrows r0 hr0
      have hne : (tl.map asVlist).map List.length ≠ [] := by simp [htl]
      rw [foldl_max_const _ hd.length 0 hall hne]
      simp only [Nat.max_def]
      split
      all_goals omega
    rw [table_to_dataframe_shaped hd tl hshape.1 hshape.2, if_pos hwidth.symm]
    congr 1
    rw [hwidth]
    refine congrArg (DataFrame.mk hd) ?_
    have : ∀ r ∈ tl.map asVlist,
        r ++ List.replicate (hd.length - r.length) PyVal.vna = r := by
      intro r hr
      simp only [List.mem_map] at hr
      rcases hr with ⟨r0, hr0, hrr⟩
      have : r.length = hd.length := by rw [← hrr]; exact hrows r0 hr0
      simp [this]
    rw [List.map_congr_left this]
    simp
  · intro hd tl hshape hneq
    simp only [tableShaped, Bool.and_eq_true, decide_eq_true_eq] at hshape
    rw [table_to_dataframe_shaped hd tl hshape.1 hshape.2, if_neg hneq]
    exact ⟨_, rfl⟩

/-- Witness for C6: the amended theorem applied to a well-formed
two-row table — row 0 becomes the columns, row 1 the single data row. -/
theorem C6_amended_witness :
    table_to_dataframe (.vlist [.vlist [.vstr "a"], .vlist [.vstr "1"]])
      = .ok ⟨[.vstr "a"], [[.vstr "1"]]⟩ :=
  C6_amended.2.1 [.vstr "a"] [.vlist [.vstr "1"]] (by decide) (by decide)

/-! ## Claim C7 -/

/-- Whether `json.loads` decodes the string to a list (the only decoded
shape on which the embedded-JSON branch of `parse_value` returns). -/
def isJsonList (s : String) : Bool :=
  match jsonDecode s with
  | some (.vlist _) => true
  | _ => false

theorem parse_value_int_branch (s : String) (n : Int)
    (h1 : s ≠ "") (h2 : s ≠ "null") (h3 : s ≠ "None")
    (h4 : pyToLower s ≠ "true") (h5 : pyToLower s ≠ "false")
    (h6 : pyIsdigit s = true) (h7 : pyIntOfString s = some n) :
    parse_value (.vstr s) = .ok (.vint n) := by
  have hstep : parse_value (.vstr s) = parseValueStep (parseValueF 999) (.vstr s) := rfl
  rw [hstep]
  simp [parseValueStep, h1, h2, h3, h4, h5, h6, h7]

theorem parse_value_int_raises (s : String)
    (h1 : s ≠ "") (h2 : s ≠ "null") (h3 : s ≠ "None")
    (h4 : pyToLower s ≠ "true") (h5 : pyToLower s ≠ "false")
    (h6 : pyIsdigit s = true) (h7 : pyIntOfString s = none) :
    parse_value (.vstr s)
      = .error ("ValueError: invalid literal for int() with base 10: " ++ s) := by
  have hstep : parse_value (.vstr s) = parseValueStep (parseValueF 999) (.vstr s) := rfl
  rw [hstep]
  simp [parseValueStep, h1, h2, h3, h4, h5, h6, h7]

theorem parse_value_float_branch (s : String) (f : PyFloat)
    (h1 : s ≠ "") (h2 : s ≠ "null") (h3 : s ≠ "None")
    (h4 : pyToLower s ≠ "true") (h5 : pyToLower s ≠ "false")
    (h6 : pyIsdigit s = false) (h7 : pyFloatOfString s = some f) :
    parse_value (.vstr s) = .ok (.vfloat f) := by
  have hstep : parse_value (.vstr s) = parseValueStep (parseValueF 999) (.vstr s) := rfl
  rw [hstep]
  simp [parseValueStep, h1, h2, h3, h4, h5, h6, h7]

theorem parse_value_iso_branch (s : String) (d : PyDateTime)
    (h1 : s ≠ "") (h2 : s ≠ "null") (h3 : s ≠ "None")
    (h4 : pyToLower s ≠ "true") (h5 : pyToLower s ≠ "false")
    (h6 : pyIsdigit s = false) (h7 : pyFloatOfString s = none)
    (h8 : pyInStr "T" s = true) (h9 : pyFromIsoformat s = some d) :
    parse_value (.vstr s) = .ok (.vdt d) := by
  have hstep : parse_value (.vstr s) = parseValueStep (parseValueF 999) (.vstr s) := rfl
  rw [hstep]
  simp [parseValueStep, h1, h2, h3, h4, h5, h6, h7, h8, h9]

theorem parse_value_unchanged (s : String)
    (h1 : s ≠ "") (h2 : s ≠ "null") (h3 : s ≠ "None")
    (h4 : pyToLower s ≠ "true") (h5 : pyToLower s ≠ "false")
    (h6 : pyIsdigit s = false) (h7 : pyFloatOfString s = none)
    (h8 : pyInStr "T" s = true → pyFromIsoformat s = none)
    (h9 : (pyInStr "AM" s || pyInStr "PM" s) = true → pyStrptimeUS s = none)
    (h10 : isJsonList s = false) :
    parse_value (.vstr s) = .ok (.vstr s) := by
  have hstep : parse_value (.vstr s) = parseValueStep (parseValueF 999) (.vstr s) := rfl
  rw [hstep]
  simp only [parseValueStep]
  rw [if_neg (by simp [h1, h2, h3]), if_neg h4, if_neg h5, if_neg (by simp [h6])]
  rw [h7]
  have hiso : (if pyInStr "T" s then pyFromIsoformat s else none) = none := by
    rcases ht : pyInStr "T" s
    · simp
    · simp [h8 ht]
  have hus : (if pyInStr "AM" s || pyInStr "PM" s then pyStrptimeUS s else none) = none := by
    rcases ht : (pyInStr "AM" s || pyInStr "PM" s)
    · simp
    · simp [h9 ht]
  rw [hiso, hus]
  rcases hj : jsonDecode s with _ | v
  · simp
  · cases v with
    | vlist items => simp [isJsonList, hj] at h10
    | vstr a => simp
    | vint a => simp
    | vfloat a => simp
    | vbool a => simp
    | vnone => simp
    | vna => simp
    | vdt a => simp

/-- Claim C7 counterexample: `parse_value` is not exception-free — on the
superscript digit string `"²"`, `str.isdigit` is `True`, so the integer
branch runs `int("²")`, which raises `ValueError`; the surrounding
handler catches only `AttributeError`, so the exception escapes.  This
falsifies the claim's "no input ever causes an exception". -/
theorem C7_counterexample :
    parse_value (.vstr "²")
      = .error "ValueError: invalid literal for int() with base 10: ²" := by
  decide

/-- Claim C7 (amended): the stated round-trips hold
(`parse("3.14") = 157/50` as an exact decimal) and the checks are applied
in the stated order — null/boolean first, a `str.isdigit` string is
converted by `int()` before the float parse is ever tried, date parsing
runs only after the numeric and boolean checks fail, the embedded JSON
list is tried last, and inputs matching none of the checks are returned
unchanged.  However `parse_value` is not exception-free: on a digit-typed
string that `int()` rejects (e.g. a superscript digit) the integer branch
raises `ValueError`, uncaught because the guard catches only
`AttributeError`; every other unparseable input degrades to the original
value. -/
theorem C7_parse_value_ordered :
    (parse_value (.vstr "true") = .ok (.vbool true)
      ∧ parse_value (.vstr "123") = .ok (.vint 123)
      ∧ parse_value (.vstr "") = .ok .vnone
      ∧ parse_value (.vstr "3.14") = .ok (.vfloat (.finite (mkRat 157 50)))
      ∧ parse_value (.vstr "[\"1\",\"2\"]") = .ok (.vlist [.vint 1, .vint 2]))
    ∧ (∀ s n, s ≠ "" → s ≠ "null" → s ≠ "None" →
        pyToLower s ≠ "true" → pyToLower s ≠ "false" →
        pyIsdigit s = true → pyIntOfString s = some n →
        parse_value (.vstr s) = .ok (.vint n))
    ∧ (∀ s f, s ≠ "" → s ≠ "null" → s ≠ "None" →
        pyToLower s ≠ "true" → pyToLower s ≠ "false" →
        pyIsdigit s = false → pyFloatOfString s = some f →
        parse_value (.vstr s) = .ok (.vfloat f))
    ∧ (∀ s d, s ≠ "" → s ≠ "null" → s ≠ "None" →
        pyToLower s ≠ "true" → pyToLower s ≠ "false" →
        pyIsdigit s = false → pyFloatOfString s = none →
        pyInStr "T" s = true → pyFromIsoformat s = some d →
        parse_value (.vstr s) = .ok (.vdt d))
    ∧ (∀ s, s ≠ "" → s ≠ "null" → s ≠ "None" →
        pyToLower s ≠ "true" → pyToLower s ≠ "false" →
        pyIsdigit s = false → pyFloatOfString s = none →
        (pyInStr "T" s = true → pyFromIsoformat s = none) →
        ((pyInStr "AM" s || pyInStr "PM" s) = true → pyStrptimeUS s = none) →
        isJsonList s = false →
        parse_value (.vstr s) = .ok (.vstr s))
    ∧ (∀ s, s ≠ "" → s ≠ "null" → s ≠ "None" →
        pyToLower s ≠ "true" → pyToLower s ≠ "false" →
        pyIsdigit s = true → pyIntOfString s = none →
        parse_value (.vstr s)
          = .error ("ValueError: invalid literal for int() with base 10: " ++ s)) := by
  refine ⟨⟨by decide, by decide, by decide, by decide, by decide⟩, ?_, ?_, ?_, ?_, ?_⟩
  · intro s n h1 h2 h3 h4 h5 h6 h7
    exact parse_value_int_branch s n h1 h2 h3 h4 h5 h6 h7
  · intro s f h1 h2 h3 h4 h5 h6 h7
    exact parse_value_float_branch s f h1 h2 h3 h4 h5 h6 h7
  · intro s d h1 h2 h3 h4 h5 h6 h7 h8 h9
    exact parse_value_iso_branch s d h1 h2 h3 h4 h5 h6 h7 h8 h9
  · intro s h1 h2 h3 h4 h5 h6 h7 h8 h9 h10
    exact parse_value_unchanged s h1 h2 h3 h4 h5 h6 h7 h8 h9 h10
  · intro s h1 h2 h3 h4 h5 h6 h7
    exact parse_value_int_raises s h1 h2 h3 h4 h5 h6 h7

/-- Witness for C7: the ordering conjuncts applied at concrete inputs —
"42" takes the integer branch, "2.5" the float branch, "zz" falls all the
way through unchanged. -/
theorem C7_parse_value_ordered_witness :
    parse_value (.vstr "42") = .ok (.vint 42)
    ∧ parse_value (.vstr "2.5") = .ok (.vfloat (.finite (mkRat 5 2)))
    ∧ parse_value (.vstr "zz") = .ok (.vstr "zz") :=
  ⟨C7_parse_value_ordered.2.1 "42" 42 (by decide) (by decide) (by decide) (by decide)
      (by decide) (by decide) (by decide),
   C7_parse_value_ordered.2.2.1 "2.5" (.finite (mkRat 5 2)) (by decide) (by decide)
      (by decide) (by decide) (by decide) (by decide) (by decide),
   C7_parse_value_ordered.2.2.2.2.1 "zz" (by decide) (by decide) (by decide) (by decide)
      (by decide) (by decide) (by decide) (by decide) (by decide) (by decide)⟩

/-! ## Claim C4 -/

/-- A session on which every `get_response` call yields a throttling
error. -/
def allThrottleOracle : Nat → GetResp :=
  fun _ => .errorResponse "Limit reached - please retry"

/-- A session on which every `get_response` call returns `None`
(a `RequestFailure`, the no-response path). -/
def allFailedOracle : Nat → GetResp :=
  fun _ => .failed

/-- Whether a `get_response` outcome is a throttling error response. -/
def isThrottleResp : GetResp → Bool
  | .errorResponse m => pyInStr "Limit reached" m
  | _ => false

theorem isThrottleResp_elim (g : GetResp) (h : isThrottleResp g = true) :
    ∃ m, g = .errorResponse m ∧ pyInStr "Limit reached" m = true := by
  cases g with
  | errorResponse m => exact ⟨m, rfl, h⟩
  | failed => simp [isThrottleResp] at h
  | excel r => simp [isThrottleResp] at h
  | otherJson t => simp [isThrottleResp] at h

theorem mrLoop_calls (oracle : Nat → GetResp) (parse : Bool) :
    ∀ fuel attempt sleeps calls,
      (mrLoop oracle parse attempt fuel sleeps calls).calls ≤ calls + fuel := by
  intro fuel
  induction fuel with
  | zero => intro attempt sleeps calls; simp [mrLoop]
  | succ n ih =>
      intro attempt sleeps calls
      rcases ho : oracle attempt with _ | m | results | t
      · simp only [mrLoop, ho]
        have := ih (attempt + 1) sleeps (calls + 1)
        omega
      · by_cases hm : pyInStr "Limit reached" m = true
        · simp only [mrLoop, ho, hm, if_true]
          have := ih (attempt + 1) (sleeps ++ [1]) (calls + 1)
          omega
        · simp only [Bool.not_eq_true] at hm
          simp only [mrLoop, ho, hm, Bool.false_eq_true, if_false]
          omega
      · rcases hb : buildOutput parse results with e | out
        · simp only [mrLoop, ho, hb]
          omega
        · simp only [mrLoop, ho, hb]
          omega
      · simp only [mrLoop, ho]
        omega

theorem mrLoop_sleeps (oracle : Nat → GetResp) (parse : Bool) :
    ∀ fuel attempt sleeps calls, (∀ t ∈ sleeps, t = 1) →
      ∀ t ∈ (mrLoop oracle parse attempt fuel sleeps calls).sleeps, t = 1 := by
  intro fuel
  induction fuel with
  | zero => intro attempt sleeps calls hall; simpa [mrLoop] using hall
  | succ n ih =>
      intro attempt sleeps calls hall
      rcases ho : oracle attempt with _ | m | results | t
      · simp only [mrLoop, ho]
        exact ih (attempt + 1) sleeps (calls + 1) hall
      · by_cases hm : pyInStr "Limit reached" m = true
        · simp only [mrLoop, ho, hm, if_true]
          refine ih (attempt + 1) (sleeps ++ [1]) (calls + 1) ?_
          intro t ht
          rcases List.mem_append.mp ht with h | h
          · exact hall t h
          · simpa using h
        · simp only [Bool.not_eq_true] at hm
          simp only [mrLoop, ho, hm, Bool.false_eq_true, if_false]
          simpa using hall
      · rcases hb : buildOutput parse results with e | out
        · simp only [mrLoop, ho, hb]
          simpa using hall
        · simp only [mrLoop, ho, hb]
          simpa using hall
      · simp only [mrLoop, ho]
        simpa using hall

theorem mrLoop_throttle_step (oracle : Nat → GetResp) (parse : Bool)
    (attempt fuel : Nat) (sleeps : List Nat) (calls : Nat) (m : String)
    (e : oracle attempt = .errorResponse m)
    (p : pyInStr "Limit reached" m = true) :
    mrLoop oracle parse attempt (fuel + 1) sleeps calls
      = mrLoop oracle parse (attempt + 1) fuel (sleeps ++ [1]) (calls + 1) := by
  simp only [mrLoop, e, p, if_true]

/-- Claim C4 counterexample: when the attempt budget is exhausted by
throttling responses, `make_request` does not fail with a
throttle-specific error — it raises the generic
`TimeoutError("Failed to receive a valid response after multiple
attempts.")`, the very same error the no-response exhaustion path raises,
so the claimed "throttle-exhausted error distinct from other failures"
does not exist. -/
theorem C4_counterexample :
    (make_request allThrottleOracle true).result
      = .error (.timeoutError "Failed to receive a valid response after multiple attempts.")
    ∧ (make_request allThrottleOracle true).result
      = (make_request allFailedOracle true).result := by
  exact ⟨by decide, by decide⟩

/-- Claim C4 (amended): single-request mode makes at most 3 `get_response`
attempts in total (so at most 2 retries for the attempt budget 3), every
throttling response is followed by the fixed 1-second backoff, and a run
whose first three responses are all throttling errors performs exactly 3
attempts, sleeps `[1, 1, 1]`, and fails with the generic retries-exhausted
`TimeoutError` — shared with the no-response path — rather than a
throttle-specific error. -/
theorem C4_make_request_throttle :
    (∀ (oracle : Nat → GetResp) (parse : Bool),
      (make_request oracle parse).calls ≤ 3)
    ∧ (∀ (oracle : Nat → GetResp) (parse : Bool) (t : Nat),
        t ∈ (make_request oracle parse).sleeps → t = 1)
    ∧ (∀ (oracle : Nat → GetResp) (parse : Bool),
        (∀ i, i < 3 → isThrottleResp (oracle i) = true) →
        make_request oracle parse
          = ⟨.error (.timeoutError "Failed to receive a valid response after multiple attempts."),
             [1, 1, 1], 3⟩) := by
  refine ⟨?_, ?_, ?_⟩
  · intro oracle parse
    have := mrLoop_calls oracle parse 3 0 [] 0
    simpa [make_request] using this
  · intro oracle parse t ht
    exact mrLoop_sleeps oracle parse 3 0 [] 0 (by simp) t ht
  · intro oracle parse h
    obtain ⟨m0, e0, p0⟩ := isThrottleResp_elim _ (h 0 (by omega))
    obtain ⟨m1, e1, p1⟩ := isThrottleResp_elim _ (h 1 (by omega))
    obtain ⟨m2, e2, p2⟩ := isThrottleResp_elim _ (h 2 (by omega))
    have run : make_request oracle parse = mrLoop oracle parse 0 3 [] 0 := rfl
    rw [run,
        mrLoop_throttle_step oracle parse 0 2 [] 0 m0 e0 p0,
        mrLoop_throttle_step oracle parse 1 1 ([] ++ [1]) 1 m1 e1 p1,
        mrLoop_throttle_step oracle parse 2 0 (([] ++ [1]) ++ [1]) 2 m2 e2 p2]
    simp [mrLoop]

/-- Witness for C4: the amended theorem applied to the all-throttling
session. -/
theorem C4_make_request_throttle_witness :
    make_request allThrottleOracle true
      = ⟨.error (.timeoutError "Failed to receive a valid response after multiple attempts."),
         [1, 1, 1], 3⟩ :=
  C4_make_request_throttle.2.2 allThrottleOracle true (by decide)

/-! ## Lemmas about columns, ordered unions and frame alignment -/

theorem getD_replicate_vna : ∀ (n k : Nat),
    (List.replicate n PyVal.vna).getD k PyVal.vna = PyVal.vna := by
  intro n
  induction n with
  | zero => intro k; simp [List.getD]
  | succ m ih =>
      intro k
      cases k with
      | zero => simp [List.replicate]
      | succ j =>
          simp only [List.replicate]
          simpa [List.getD] using ih j

theorem colIdx_append_right (A B : List PyVal) (c : PyVal) (h : c ∉ A) :
    colIdx (A ++ B) c = (colIdx B c).map (fun k => A.length + k) := by
  induction A with
  | nil =>
      cases hb : colIdx B c <;> simp [hb]
  | cons a A ih =>
      have ha : a ≠ c := fun hh => h (by simp [hh])
      have hA : c ∉ A := fun hh => h (by simp [hh])
      rw [List.cons_append]
      have hstep : colIdx (a :: (A ++ B)) c = (colIdx (A ++ B) c).map (fun k => k + 1) := by
        simp [colIdx, ha]
      rw [hstep, ih hA]
      cases hb : colIdx B c with
      | none => simp
      | some k =>
          simp only [Option.map_some', Option.some.injEq, List.length_cons]
          omega

theorem colIdx_mem (B : List PyVal) (c : PyVal) (h : c ∈ B) :
    ∃ k, colIdx B c = some k ∧ k < B.length := by
  induction B with
  | nil => cases h
  | cons b B ih =>
      by_cases hb : b = c
      · exact ⟨0, by simp [colIdx, hb], by simp⟩
      · have hc : c ∈ B := by
          rcases List.mem_cons.mp h with h1 | h1
          · exact absurd h1.symm hb
          · exact h1
        obtain ⟨k, hk, hlt⟩ := ih hc
        refine ⟨k + 1, by simp [colIdx, hb, hk], by simp; omega⟩

theorem colIdx_self (cols : List PyVal) :
    cols.Nodup → ∀ (j : Nat) (h : j < cols.length),
      colIdx cols (cols.get ⟨j, h⟩) = some j := by
  induction cols with
  | nil => intro _ j h; simp at h
  | cons a cs ih =>
      intro hnd j h
      have hnd2 := List.nodup_cons.mp hnd
      cases j with
      | zero => simp [colIdx]
      | succ m =>
          have hm : m < cs.length := by simpa using h
          have hget : (a :: cs).get ⟨m + 1, h⟩ = cs.get ⟨m, hm⟩ := rfl
          have hne : a ≠ cs.get ⟨m, hm⟩ := by
            intro heq
            apply hnd2.1
            rw [heq]
            exact List.get_mem cs m hm
          have hidx := ih hnd2.2 m hm
          rw [hget]
          rw [List.get_eq_getElem] at hidx hne ⊢
          simp only [colIdx]
          rw [if_neg hne, hidx]
          rfl

theorem selectRow_self (cols r : List PyVal) (hnd : cols.Nodup)
    (hlen : r.length = cols.length) :
    (cols.map (fun c =>
      match colIdx cols c with
      | some k => r.getD k PyVal.vna
      | none => PyVal.vna)) = r := by
  apply List.ext_get?
  intro n
  rcases Nat.lt_or_ge n cols.length with hn | hn
  · have hn2 : n < r.length := by omega
    rw [List.get?_map, List.get?_eq_get hn, List.get?_eq_get hn2]
    simp only [Option.map_some']
    rw [colIdx_self cols hnd n hn]
    simp [List.getD, List.getElem?_eq_getElem hn2]
  · have h1 : (cols.map (fun c =>
        match colIdx cols c with
        | some k => r.getD k PyVal.vna
        | none => PyVal.vna)).get? n = none := by
      apply List.get?_eq_none.mpr
      simpa using hn
    have h2 : r.get? n = none := by
      apply List.get?_eq_none.mpr
      omega
    rw [h1, h2]

theorem selectCols_rows_length (cols : List PyVal) (df : DataFrame) :
    (selectCols cols df).rows.length = df.rows.length := by
  simp [selectCols]

theorem selectCols_self (df : DataFrame) (hnd : df.cols.Nodup)
    (hwf : ∀ r ∈ df.rows, r.length = df.cols.length) :
    selectCols df.cols df = df := by
  rcases df with ⟨cols, rows⟩
  simp only [selectCols]
  refine congrArg (DataFrame.mk cols) ?_
  have : ∀ r ∈ rows, (cols.map (fun c =>
      match colIdx cols c with
      | some k => r.getD k PyVal.vna
      | none => PyVal.vna)) = r := by
    intro r hr
    exact selectRow_self cols r hnd (hwf r hr)
  calc rows.map _ = rows.map id := List.map_congr_left (fun r hr => this r hr)
    _ = rows := List.map_id rows

theorem orderedUnionInto_cons (acc : List PyVal) (c : PyVal) (cs : List PyVal) :
    orderedUnionInto acc (c :: cs)
      = orderedUnionInto (if c ∈ acc then acc else acc ++ [c]) cs := rfl

theorem orderedUnionInto_all_mem : ∀ (cs acc : List PyVal),
    (∀ c ∈ cs, c ∈ acc) → orderedUnionInto acc cs = acc := by
  intro cs
  induction cs with
  | nil => intro acc _; rfl
  | cons c cs ih =>
      intro acc h
      rw [orderedUnionInto_cons, if_pos (h c (by simp))]
      exact ih acc (fun x hx => h x (by simp [hx]))

theorem orderedUnionInto_nodup : ∀ (cs acc : List PyVal),
    (acc ++ cs).Nodup → orderedUnionInto acc cs = acc ++ cs := by
  intro cs
  induction cs with
  | nil => intro acc _; simp [orderedUnionInto]
  | cons c cs ih =>
      intro acc h
      have hsplit := List.nodup_append.mp h
      have hc : c ∉ acc := by
        intro hmem
        exact hsplit.2.2 hmem (by simp)
      rw [orderedUnionInto_cons, if_neg hc]
      have hassoc : (acc ++ [c]) ++ cs = acc ++ c :: cs := by simp
      rw [ih (acc ++ [c]) (by rw [hassoc]; exact h), hassoc]

theorem foldl_orderedUnionInto_const (c0 : List PyVal) :
    ∀ (ls : List (List PyVal)), (∀ l ∈ ls, l = c0) →
      List.foldl orderedUnionInto c0 ls = c0 := by
  intro ls
  induction ls with
  | nil => intro _; rfl
  | cons l ls ih =>
      intro h
      have hl : l = c0 := h l (by simp)
      simp only [List.foldl]
      rw [hl, orderedUnionInto_all_mem c0 c0 (fun c hc => hc)]
      exact ih (fun x hx => h x (by simp [hx]))

theorem orderedUnion_const (c0 : List PyVal) (hnd : c0.Nodup) :
    ∀ (ls : List (List PyVal)), (∀ l ∈ ls, l = c0) → ls ≠ [] →
      orderedUnion ls = c0 := by
  intro ls hall hne
  rcases ls with _ | ⟨l, rest⟩
  · exact absurd rfl hne
  · have hl : l = c0 := hall l (by simp)
    subst hl
    simp only [orderedUnion, List.foldl]
    rw [orderedUnionInto_nodup l [] (by simpa using hnd)]
    simp only [List.nil_append]
    exact foldl_orderedUnionInto_const l rest (fun x hx => hall x (by simp [hx]))

theorem addMissing_spec : ∀ (cols : List PyVal) (df : DataFrame),
    (∀ r ∈ df.rows, r.length = df.cols.length) →
    ∃ added : List PyVal,
      (addMissing cols df).cols = df.cols ++ added
      ∧ (addMissing cols df).rows
          = df.rows.map (fun r => r ++ List.replicate added.length PyVal.vna)
      ∧ (∀ c ∈ cols, c ∈ df.cols ++ added)
      ∧ added.Nodup
      ∧ (∀ c ∈ added, c ∉ df.cols ∧ c ∈ cols) := by
  intro cols
  induction cols with
  | nil =>
      intro df _
      refine ⟨[], by simp [addMissing], ?_, by simp, by simp, by simp⟩
      simp [addMissing]
  | cons c cs ih =>
      intro df hwf
      by_cases hc : c ∈ df.cols
      · have hstep : addMissing (c :: cs) df = addMissing cs df := by
          simp [addMissing, hc]
        obtain ⟨added, h1, h2, h3, h4, h5⟩ := ih df hwf
        refine ⟨added, by rw [hstep]; exact h1, by rw [hstep]; exact h2, ?_, h4, ?_⟩
        · intro x hx
          rcases List.mem_cons.mp hx with h | h
          · subst h; exact List.mem_append.mpr (Or.inl hc)
          · exact h3 x h
        · intro x hx
          exact ⟨(h5 x hx).1, by simp [(h5 x hx).2]⟩
      · set df2 : DataFrame :=
          ⟨df.cols ++ [c], df.rows.map (fun r => r ++ [PyVal.vna])⟩ with hdf2
        have hstep : addMissing (c :: cs) df = addMissing cs df2 := by
          simp [addMissing, hc, hdf2]
        have hwf2 : ∀ r ∈ df2.rows, r.length = df2.cols.length := by
          intro r hr
          rw [hdf2] at hr
          simp only [List.mem_map] at hr
          obtain ⟨r0, hr0, hrr⟩ := hr
          rw [← hrr, hdf2]
          simp [hwf r0 hr0]
        obtain ⟨added, h1, h2, h3, h4, h5⟩ := ih df2 hwf2
        refine ⟨c :: added, ?_, ?_, ?_, ?_, ?_⟩
        · rw [hstep, h1, hdf2]
          simp
        · rw [hstep, h2, hdf2]
          simp only [List.map_map]
          refine List.map_congr_left ?_
          intro r _
          simp [Function.comp, List.replicate_succ]
        · intro x hx
          rcases List.mem_cons.mp hx with h | h
          · subst h
            exact List.mem_append.mpr (Or.inr (by simp))
          · have := h3 x h
            rw [hdf2] at this
            simp only [List.append_assoc] at this
            simpa using this
        · refine List.nodup_cons.mpr ⟨?_, h4⟩
          intro hmem
          have := (h5 c hmem).1
          rw [hdf2] at this
          simp at this
        · intro x hx
          rcases List.mem_cons.mp hx with h | h
          · subst h; exact ⟨hc, by simp⟩
          · have h6 := h5 x h
            rw [hdf2] at h6
            constructor
            · intro hmem
              exact h6.1 (by simp [hmem])
            · simp [h6.2]

theorem stack_strict_eq (dfs : List DataFrame) (target : List PyVal) :
    stack_dataframes dfs (some target) true
      = (if dfs.any (fun df => !(sameColSet df.cols target)) then
          .error "ValueError: Dataframe columns do not match the specified columns."
        else
          match pdConcat dfs with
          | .ok res => .ok (res, dfs)
          | .error e => .error e) := rfl

theorem stack_nonstrict_eq (dfs : List DataFrame) (columns : Option (List PyVal)) :
    stack_dataframes dfs columns false
      = (match pdConcat ((dfs.map (addMissing (stackTargetCols dfs columns))).map
            (selectCols (stackTargetCols dfs columns))) with
        | .ok res => .ok (res, dfs.map (addMissing (stackTargetCols dfs columns)))
        | .error e => .error e) := rfl

/-! ## Claim C8 -/

/-- Claim C8 counterexample: on the empty input list with an explicit
target column list under `strict = true`, no column-set mismatch exists,
yet `stack_dataframes` does not return a concatenation — the final
`pd.concat` raises `ValueError: No objects to concatenate`.  So the
claim's "when every column set matches exactly, it returns the row-wise
concatenation" fails for the empty list of tables. -/
theorem C8_counterexample :
    stack_dataframes [] (some [.vstr "a"]) true
      = .error "ValueError: No objects to concatenate" := by
  decide

/-- Claim C8 (amended): with an explicit target list and `strict = true`,
`stack_dataframes` fails with the schema-mismatch `ValueError` (and
produces no output frame) whenever some input frame's column set differs
from the target set; when the input list is nonempty and every column set
matches, it returns the row-wise concatenation in input order — the
output row count is the sum of the input row counts, and when the frames
share one duplicate-free column list the output rows are literally the
concatenation of the input rows; an empty input list instead raises
`No objects to concatenate`. -/
theorem C8_stack_strict :
    ∀ (dfs : List DataFrame) (target : List PyVal),
      ((∃ df ∈ dfs, sameColSet df.cols target = false) →
        stack_dataframes dfs (some target) true
          = .error "ValueError: Dataframe columns do not match the specified columns.")
      ∧ (dfs ≠ [] → (∀ df ∈ dfs, sameColSet df.cols target = true) →
          ∃ res, stack_dataframes dfs (some target) true = .ok (res, dfs)
            ∧ res.rows.length = (dfs.map (fun df => df.rows.length)).sum
            ∧ (∀ c0, c0.Nodup →
                (∀ df ∈ dfs, df.cols = c0 ∧ ∀ r ∈ df.rows, r.length = c0.length) →
                res.rows = (dfs.map DataFrame.rows).flatten)) := by
  intro dfs target
  constructor
  · rintro ⟨df, hmem, hms⟩
    rw [stack_strict_eq, if_pos]
    exact List.any_eq_true.mpr ⟨df, hmem, by simp [hms]⟩
  · intro hne hall
    have hany : dfs.any (fun df => !(sameColSet df.cols target)) = false := by
      rw [List.any_eq_false]
      intro df hdf
      simp [hall df hdf]
    rcases dfs with _ | ⟨d, ds⟩
    · exact absurd rfl hne
    · have hconcat : pdConcat (d :: ds)
          = .ok ⟨orderedUnion ((d :: ds).map DataFrame.cols),
              ((d :: ds).map (fun df =>
                (selectCols (orderedUnion ((d :: ds).map DataFrame.cols)) df).rows)).flatten⟩ :=
        rfl
      refine ⟨⟨orderedUnion ((d :: ds).map DataFrame.cols),
          ((d :: ds).map (fun df =>
            (selectCols (orderedUnion ((d :: ds).map DataFrame.cols)) df).rows)).flatten⟩,
          ?_, ?_, ?_⟩
      · rw [stack_strict_eq, if_neg (by simp [hany]), hconcat]
      · simp only [List.length_flatten, List.map_map]
        congr 1
        refine List.map_congr_left ?_
        intro df _
        simp [Function.comp, selectCols_rows_length]
      · intro c0 hnd hwf
        have hcols : ∀ l ∈ (d :: ds).map DataFrame.cols, l = c0 := by
          intro l hl
          simp only [List.mem_map] at hl
          obtain ⟨df, hdf, hrfl⟩ := hl
          rw [← hrfl]
          exact (hwf df hdf).1
        have hunion : orderedUnion ((d :: ds).map DataFrame.cols) = c0 :=
          orderedUnion_const c0 hnd _ hcols (by simp)
        simp only [hunion]
        refine congrArg List.flatten ?_
        refine List.map_congr_left ?_
        intro df hdf
        have hd1 := (hwf df hdf).1
        have hd2 := (hwf df hdf).2
        rw [← hd1] at hunion ⊢
        rw [selectCols_self df (hd1 ▸ hnd) (by intro r hr; rw [hd1]; exact hd2 r hr)]

/-- Witness for C8: the amended theorem applied to two matching one-row
frames (out-of-order but equal column sets are accepted; here the lists
are equal, so the rows concatenate literally). -/
theorem C8_stack_strict_witness :
    ∃ res, stack_dataframes
        [⟨[PyVal.vstr "a"], [[PyVal.vstr "1"]]⟩, ⟨[PyVal.vstr "a"], [[PyVal.vstr "2"]]⟩]
        (some [PyVal.vstr "a"]) true
      = .ok (res, [⟨[PyVal.vstr "a"], [[PyVal.vstr "1"]]⟩, ⟨[PyVal.vstr "a"], [[PyVal.vstr "2"]]⟩])
      ∧ res.rows.length
          = ([⟨[PyVal.vstr "a"], [[PyVal.vstr "1"]]⟩,
              (⟨[PyVal.vstr "a"], [[PyVal.vstr "2"]]⟩ : DataFrame)].map
              (fun df => df.rows.length)).sum
      ∧ (∀ c0, c0.Nodup →
          (∀ df ∈ [⟨[PyVal.vstr "a"], [[PyVal.vstr "1"]]⟩,
                   (⟨[PyVal.vstr "a"], [[PyVal.vstr "2"]]⟩ : DataFrame)],
            df.cols = c0 ∧ ∀ r ∈ df.rows, r.length = c0.length) →
          res.rows = ([⟨[PyVal.vstr "a"], [[PyVal.vstr "1"]]⟩,
              (⟨[PyVal.vstr "a"], [[PyVal.vstr "2"]]⟩ : DataFrame)].map DataFrame.rows).flatten) :=
  (C8_stack_strict
      [⟨[PyVal.vstr "a"], [[PyVal.vstr "1"]]⟩, ⟨[PyVal.vstr "a"], [[PyVal.vstr "2"]]⟩]
      [PyVal.vstr "a"]).2 (by decide) (by decide)

/-! ## Claim C9 -/

/-- The cells of one column of a frame, top to bottom (empty when the
label is absent). -/
def colValues (df : DataFrame) (c : PyVal) : List PyVal :=
  match colIdx df.cols c with
  | some k => df.rows.map (fun r => r.getD k PyVal.vna)
  | none => []

/-- Claim C9: in non-strict mode, whenever `stack_dataframes` returns, the
caller's input DataFrame objects have been mutated in place — every target
column is now present on every input frame, each column that was missing
from an input frame has been appended to that caller-visible object filled
with missing values for every row, and any input frame that was missing a
target column is no longer equal to its original value. -/
theorem C9_stack_mutates_inputs :
    ∀ (dfs : List DataFrame) (columns : Option (List PyVal)) (res : DataFrame)
      (post : List DataFrame),
      (∀ df ∈ dfs, ∀ r ∈ df.rows, r.length = df.cols.length) →
      stack_dataframes dfs columns false = .ok (res, post) →
      post.length = dfs.length
      ∧ ∀ i (hi : i < dfs.length) (hp : i < post.length),
          (∀ c ∈ stackTargetCols dfs columns, c ∈ (post.get ⟨i, hp⟩).cols)
          ∧ (∀ c ∈ stackTargetCols dfs columns, c ∉ (dfs.get ⟨i, hi⟩).cols →
              colValues (post.get ⟨i, hp⟩) c
                = List.replicate (dfs.get ⟨i, hi⟩).rows.length PyVal.vna)
          ∧ ((∃ c ∈ stackTargetCols dfs columns, c ∉ (dfs.get ⟨i, hi⟩).cols) →
              post.get ⟨i, hp⟩ ≠ dfs.get ⟨i, hi⟩) := by
  intro dfs columns res post hwf hok
  rw [stack_nonstrict_eq] at hok
  set target := stackTargetCols dfs columns with htarget
  have hpost : post = dfs.map (addMissing target) := by
    rcases hc : pdConcat ((dfs.map (addMissing target)).map (selectCols target)) with e | r
    · rw [hc] at hok; cases hok
    · rw [hc] at hok
      injection hok with h1
      injection h1 with _ h2
      exact h2.symm
  subst hpost
  constructor
  · simp
  · intro i hi hp
    have hget : (dfs.map (addMissing target)).get ⟨i, hp⟩
        = addMissing target (dfs.get ⟨i, hi⟩) := by
      rw [List.get_map]
    set df := dfs.get ⟨i, hi⟩ with hdf
    have hdfwf : ∀ r ∈ df.rows, r.length = df.cols.length :=
      hwf df (List.get_mem dfs _ _)
    obtain ⟨added, h1, h2, h3, h4, h5⟩ := addMissing_spec target df hdfwf
    refine ⟨?_, ?_, ?_⟩
    · intro c hc
      rw [hget, h1]
      exact h3 c hc
    · intro c hc hnotin
      have hcadd : c ∈ added := by
        rcases List.mem_append.mp (h3 c hc) with h | h
        · exact absurd h hnotin
        · exact h
      obtain ⟨k, hk, hklt⟩ := colIdx_mem added c hcadd
      have hidx : colIdx (df.cols ++ added) c = some (df.cols.length + k) := by
        rw [colIdx_append_right df.cols added c hnotin, hk]
        rfl
      rw [hget]
      simp only [colValues, h1, hidx, h2, List.map_map]
      rw [List.eq_replicate_iff]
      constructor
      · simp
      · intro b hb
        simp only [List.mem_map, Function.comp] at hb
        obtain ⟨r, hr, hrb⟩ := hb
        rw [← hrb]
        rw [List.getD_append_right _ _ _ _ (by rw [hdfwf r hr]; omega)]
        rw [hdfwf r hr]
        simp only [Nat.add_sub_cancel_left]
        exact getD_replicate_vna added.length k
    · rintro ⟨c, hc, hnotin⟩
      have hcadd : c ∈ added := by
        rcases List.mem_append.mp (h3 c hc) with h | h
        · exact absurd h hnotin
        · exact h
      have hlen : added ≠ [] := by
        intro h; rw [h] at hcadd; cases hcadd
      intro heq
      have : ((dfs.map (addMissing target)).get ⟨i, hp⟩).cols = df.cols := by rw [heq]
      rw [hget, h1] at this
      have : df.cols.length + added.length = df.cols.length := by
        calc df.cols.length + added.length = (df.cols ++ added).length := by simp
          _ = df.cols.length := by rw [this]
      have : added.length = 0 := by omega
      exact hlen (List.length_eq_zero.mp this)

/-- Witness for C9: a single one-column frame stacked against target
columns `[a, b]` — the caller's frame object gains the null-filled column
`b` and is no longer equal to its original value. -/
theorem C9_stack_mutates_inputs_witness :
    ([⟨[PyVal.vstr "a", PyVal.vstr "b"], [[PyVal.vstr "1", PyVal.vna]]⟩] : List DataFrame).get
        ⟨0, by decide⟩
      ≠ ([⟨[PyVal.vstr "a"], [[PyVal.vstr "1"]]⟩] : List DataFrame).get ⟨0, by decide⟩ := by
  have h := C9_stack_mutates_inputs [⟨[.vstr "a"], [[.vstr "1"]]⟩]
      (some [.vstr "a", .vstr "b"])
      ⟨[.vstr "a", .vstr "b"], [[.vstr "1", .vna]]⟩
      [⟨[.vstr "a", .vstr "b"], [[.vstr "1", .vna]]⟩]
      (by decide) (by decide)
  exact (h.2 0 (by decide) (by decide)).2.2 ⟨.vstr "b", by decide, by decide⟩

/-! ## Claim C5 -/

theorem addMissing_rows_length : ∀ (cols : List PyVal) (df : DataFrame),
    (addMissing cols df).rows.length = df.rows.length := by
  intro cols
  induction cols with
  | nil => intro df; rfl
  | cons c cs ih =>
      intro df
      by_cases hc : c ∈ df.cols
      · have : addMissing (c :: cs) df = addMissing cs df := by simp [addMissing, hc]
        rw [this, ih]
      · have : addMissing (c :: cs) df
            = addMissing cs ⟨df.cols ++ [c], df.rows.map (fun r => r ++ [PyVal.vna])⟩ := by
          simp [addMissing, hc]
        rw [this, ih]
        simp

theorem processSecurity_error (report m : String) :
    processSecurity report (.error m) = none := rfl

theorem filterMap_processSecurity_skip (report m : String)
    (o₁ o₂ : List (Except String (List (String × PyVal)))) :
    (o₁ ++ .error m :: o₂).filterMap (processSecurity report)
      = (o₁ ++ o₂).filterMap (processSecurity report) := by
  simp [List.filterMap_append, List.filterMap_cons, processSecurity_error]

theorem assetResponseLoop_skip (report m : String)
    (o₁ o₂ : List (Except String (List (String × PyVal)))) :
    assetResponseLoop report (o₁ ++ .error m :: o₂) = assetResponseLoop report (o₁ ++ o₂) := by
  simp only [assetResponseLoop, filterMap_processSecurity_skip]

/-- Claim C5 counterexample: with a single security whose `make_request`
raises, the per-security failure is caught and skipped, but the call does
not return an Aggregate Table — the final `stack_dataframes([])` reaches
`pd.concat([])`, which raises `ValueError: No objects to concatenate`, so
"a per-security failure never aborts the whole run" is false when every
security fails. -/
theorem C5_counterexample :
    run_AssetRequest ["s1"] none false [] "" [.error "boom"]
      = .error "ValueError: No objects to concatenate" := by
  decide

/-- Claim C5 (amended): each per-security failure is caught and its
security excluded — deleting a failing security's outcome anywhere in the
run changes nothing — and whenever at least one security succeeds
end-to-end the call returns an Aggregate Table whose row count is the sum
of the surviving securities' table rows; but when no security succeeds,
the final stacking raises `No objects to concatenate` instead of
returning an empty table. -/
theorem C5_partial_success :
    (∀ (security_list : List String) (factor_date : Option Int)
        (include_paiddown : Bool) (field_list : List String) (collateral_report m : String)
        (o₁ o₂ : List (Except String (List (String × PyVal)))),
      run_AssetRequest security_list factor_date include_paiddown field_list
          collateral_report (o₁ ++ .error m :: o₂)
        = run_AssetRequest security_list factor_date include_paiddown field_list
            collateral_report (o₁ ++ o₂))
    ∧ (∀ (report : String) (o : List (Except String (List (String × PyVal)))),
        (∃ r ∈ o, processSecurity report r ≠ none) →
        ∃ df, assetResponseLoop report o = .ok df
          ∧ df.rows.length
              = ((o.filterMap (processSecurity report)).map (fun d => d.rows.length)).sum) := by
  constructor
  · intro security_list factor_date include_paiddown field_list collateral_report m o₁ o₂
    simp only [run_AssetRequest]
    by_cases hcr : collateral_report ≠ ""
    · rw [if_pos hcr, if_pos hcr]
      by_cases hlen : 1 < (splitReports collateral_report).length
      · rw [if_pos hlen, if_pos hlen]
      · rw [if_neg hlen, if_neg hlen]
        rcases splitReports collateral_report with _ | ⟨fr, rest⟩
        · rfl
        · exact assetResponseLoop_skip fr m o₁ o₂
    · rw [if_neg hcr, if_neg hcr]
      exact assetResponseLoop_skip "" m o₁ o₂
  · intro report o hex
    obtain ⟨r, hr, hne⟩ := hex
    have hframes : o.filterMap (processSecurity report) ≠ [] := by
      rcases hps : processSecurity report r with _ | df
      · exact absurd hps hne
      · intro hempty
        have : df ∈ o.filterMap (processSecurity report) :=
          List.mem_filterMap.mpr ⟨r, hr, hps⟩
        rw [hempty] at this
        cases this
    rcases hfr : o.filterMap (processSecurity report) with _ | ⟨g, gs⟩
    · exact absurd hfr hframes
    · set target := stackTargetCols (g :: gs) none with htarget
      have hX : ((g :: gs).map (addMissing target)).map (selectCols target)
          = selectCols target (addMissing target g)
            :: (gs.map (addMissing target)).map (selectCols target) := by
        simp
      have hconcat : pdConcat (((g :: gs).map (addMissing target)).map (selectCols target))
          = .ok ⟨orderedUnion ((((g :: gs).map (addMissing target)).map (selectCols target)).map
                DataFrame.cols),
              ((((g :: gs).map (addMissing target)).map (selectCols target)).map
                (fun df => (selectCols (orderedUnion ((((g :: gs).map (addMissing target)).map
                  (selectCols target)).map DataFrame.cols)) df).rows)).flatten⟩ := by
        rw [hX]
        rfl
      have heq : assetResponseLoop report o
          = .ok ⟨orderedUnion ((((g :: gs).map (addMissing target)).map (selectCols target)).map
                DataFrame.cols),
              ((((g :: gs).map (addMissing target)).map (selectCols target)).map
                (fun df => (selectCols (orderedUnion ((((g :: gs).map (addMissing target)).map
                  (selectCols target)).map DataFrame.cols)) df).rows)).flatten⟩ := by
        simp only [assetResponseLoop, hfr]
        rw [stack_nonstrict_eq, ← htarget, hconcat]
      refine ⟨_, heq, ?_⟩
      simp only [List.length_flatten, List.map_map]
      congr 1
      refine List.map_congr_left ?_
      intro df _
      simp [Function.comp, selectCols_rows_length, addMissing_rows_length]

/-- Witness for C5: two securities, the second failing — the loop returns
a table containing exactly the surviving security's rows. -/
theorem C5_partial_success_witness :
    ∃ df, assetResponseLoop ""
        [.ok [("assets", .vlist [.vlist [.vstr "c"], .vlist [.vstr "7"]])], .error "x"]
      = .ok df
      ∧ df.rows.length
          = ((([.ok [("assets", .vlist [.vlist [.vstr "c"], .vlist [.vstr "7"]])],
              .error "x"] : List (Except String (List (String × PyVal)))).filterMap
              (processSecurity "")).map (fun d => d.rows.length)).sum :=
  C5_partial_success.2 ""
    [.ok [("assets", .vlist [.vlist [.vstr "c"], .vlist [.vstr "7"]])], .error "x"]
    ⟨.ok [("assets", .vlist [.vlist [.vstr "c"], .vlist [.vstr "7"]])], by decide, by decide⟩

/-! ## The batch-loop invariant (claims C1, C2, C3) -/

/-- Loop invariant of `make_multiple_requests`: pending indices are
submission indices; an index is pending exactly while it has no recorded
outcome; each index's `responses` entry has been assigned exactly once
when it is no longer pending and never before; success outcomes carry
their own submission index as `_request_order`. -/
structure BInv (K : Nat) (st : BState) : Prop where
  pend_lt : ∀ i ∈ st.pending, i < K
  resp_iff : ∀ i, i < K → (i ∈ st.pending ↔ alookup st.responses i = none)
  writes_eq : ∀ i, i < K → alookupD st.writes i 0 = (if i ∈ st.pending then 0 else 1)
  tag : ∀ i f r, alookup st.responses i = some (.success f r) → r = i

theorem binv_init (K : Nat) : BInv K (initState K) := by
  refine ⟨?_, ?_, ?_, ?_⟩
  · intro i hi; simpa [initState] using hi
  · intro i hi
    simp [initState, alookup, List.mem_range, hi]
  · intro i hi
    simp [initState, alookupD, alookup, List.mem_range, hi]
  · intro i f r h
    simp [initState, alookup] at h

theorem recordTerminal_inv (K : Nat) (st : BState) (i : Nat) (o : Outcome)
    (hinv : BInv K st) (hi : i ∈ st.pending)
    (ho : ∀ f r, o = .success f r → r = i) :
    BInv K (recordTerminal st i o) := by
  have hiK : i < K := hinv.pend_lt i hi
  refine ⟨?_, ?_, ?_, ?_⟩
  · intro j hj
    simp only [recordTerminal] at hj
    exact hinv.pend_lt j ((mem_filter_ne st.pending i j).mp hj).1
  · intro j hj
    simp only [recordTerminal]
    by_cases hji : j = i
    · subst hji
      rw [alookup_aupsert_self]
      simp [mem_filter_ne]
    · rw [alookup_aupsert_ne st.responses i j o hji]
      rw [mem_filter_ne]
      have := hinv.resp_iff j hj
      constructor
      · intro hh; exact this.mp hh.1
      · intro hh; exact ⟨this.mpr hh, hji⟩
  · intro j hj
    simp only [recordTerminal]
    by_cases hji : j = i
    · subst hji
      have hold : alookupD st.writes j 0 = 0 := by
        rw [hinv.writes_eq j hj, if_pos hi]
      rw [alookupD, alookup_aupsert_self]
      simp only [Option.getD_some, hold]
      rw [if_neg (by rw [mem_filter_ne]; rintro ⟨_, hne⟩; exact hne rfl)]
    · rw [alookupD, alookup_aupsert_ne st.writes i j _ hji]
      have := hinv.writes_eq j hj
      rw [alookupD] at this
      rw [this]
      by_cases hjm : j ∈ st.pending
      · rw [if_pos hjm, if_pos (by rw [mem_filter_ne]; exact ⟨hjm, hji⟩)]
      · rw [if_neg hjm, if_neg (by rw [mem_filter_ne]; rintro ⟨hh, _⟩; exact hjm hh)]
  · intro j f r h
    simp only [recordTerminal] at h
    by_cases hji : j = i
    · subst hji
      rw [alookup_aupsert_self] at h
      injection h with hh
      exact ho f r hh
    · rw [alookup_aupsert_ne st.responses i j o hji] at h
      exact hinv.tag j f r h

theorem processMsg_inv (K mr rd : Nat) (etype : EvType) (st : BState) (m : BMsg)
    (hinv : BInv K st) : BInv K (processMsg K mr rd etype st m) := by
  rcases hc : m.corrIds with _ | ⟨cid, rest⟩
  · simp only [processMsg, hc]; exact hinv
  · simp only [processMsg, hc]
    by_cases h1 : 0 ≤ cid ∧ cid < (K : Int)
    case neg => rw [if_neg h1]; exact hinv
    rw [if_pos h1]
    by_cases h2 : cid.toNat ∈ st.pending
    case neg => rw [if_neg h2]; exact hinv
    rw [if_pos h2]
    by_cases h3 : m.msgType = "RequestFailure"
    · rw [if_pos h3]
      exact recordTerminal_inv K st _ _ hinv h2 (fun f r h => Outcome.noConfusion h)
    rw [if_neg h3]
    by_cases h4 : etype = .partialResponse ∨ etype = .response
    case neg => rw [if_neg h4]; exact hinv
    rw [if_pos h4]
    by_cases h5 : m.hasError = true
    · rw [if_pos h5]
      by_cases h6 : pyInStr "Limit reached" m.errMsg = true
      · rw [if_pos h6]
        by_cases h7 : alookupD st.retryCounts cid.toNat 0 < mr
        · rw [if_pos h7]
          exact ⟨hinv.pend_lt, hinv.resp_iff, hinv.writes_eq, hinv.tag⟩
        · rw [if_neg h7]
          exact recordTerminal_inv K st _ _ hinv h2 (fun f r h => Outcome.noConfusion h)
      · rw [if_neg h6]
        exact recordTerminal_inv K st _ _ hinv h2 (fun f r h => Outcome.noConfusion h)
    · rw [if_neg h5]
      cases hp : m.payload with
      | excelResults results =>
          refine recordTerminal_inv K st _ _ hinv h2 ?_
          intro f r h
          injection h with _ hh
          exact hh.symm
      | otherJson text =>
          exact recordTerminal_inv K st _ _ hinv h2 (fun f r h => Outcome.noConfusion h)
      | malformed err =>
          exact recordTerminal_inv K st _ _ hinv h2 (fun f r h => Outcome.noConfusion h)

theorem stepEvent_inv (K mr rd : Nat) (st : BState) (ev : BEvent)
    (hinv : BInv K st) : BInv K (stepEvent K mr rd st ev) := by
  rw [stepEvent]
  generalize ev.msgs = msgs
  induction msgs generalizing st with
  | nil => exact hinv
  | cons msg rest ih =>
      exact ih (processMsg K mr rd ev.etype st msg) (processMsg_inv K mr rd ev.etype st msg hinv)

theorem collectResponses_spec (resp : List (Nat × Outcome)) :
    ∀ xs : List Nat, (∀ i ∈ xs, (alookup resp i).isSome) →
      ∃ os, collectResponses resp xs = some os
        ∧ os.length = xs.length
        ∧ ∀ k i, xs.get? k = some i → os.get? k = alookup resp i := by
  intro xs
  induction xs with
  | nil =>
      intro _
      refine ⟨[], rfl, rfl, ?_⟩
      intro k i h
      simp at h
  | cons x xs ih =>
      intro h
      have hx := h x (by simp)
      rcases ho : alookup resp x with _ | o
      · rw [ho] at hx; simp at hx
      · obtain ⟨os, h1, h2, h3⟩ := ih (fun i hi => h i (by simp [hi]))
        refine ⟨o :: os, ?_, by simp [h2], ?_⟩
        · simp [collectResponses, ho, h1]
        · intro k i hk
          cases k with
          | zero =>
              simp only [List.get?] at hk ⊢
              injection hk with hk
              subst hk
              rw [ho]
          | succ n =>
              simp only [List.get?] at hk ⊢
              exact h3 n i hk

theorem assemble_spec (K : Nat) (st : BState) (hinv : BInv K st)
    (hp : st.pending.isEmpty = true) :
    ∃ os, assemble K st = .ok os ∧ os.length = K
      ∧ ∀ i, i < K → ∃ o, os.get? i = some o ∧ alookup st.responses i = some o := by
  have hpe : st.pending = [] := List.isEmpty_iff.mp hp
  have hall : ∀ i ∈ List.range K, (alookup st.responses i).isSome := by
    intro i hi
    have hiK : i < K := List.mem_range.mp hi
    have hnotp : i ∉ st.pending := by rw [hpe]; simp
    rcases hl : alookup st.responses i with _ | o
    · exact absurd ((hinv.resp_iff i hiK).mpr hl) hnotp
    · rfl
  obtain ⟨os, h1, h2, h3⟩ := collectResponses_spec st.responses (List.range K) hall
  refine ⟨os, ?_, by simpa using h2, ?_⟩
  · rw [assemble, h1]
  · intro i hiK
    have hr : (List.range K).get? i = some i := List.get?_range hiK
    have := h3 i i hr
    rcases hl : alookup st.responses i with _ | o
    · have := hall i (List.mem_range.mpr hiK)
      rw [hl] at this; simp at this
    · exact ⟨o, by rw [this, hl], rfl⟩

theorem runLoop_spec (K timeout mr rd : Nat) :
    ∀ (evs : List (Nat × BEvent)) (st : BState) (r : Except BErr (List Outcome))
      (st' : BState),
      BInv K st →
      runLoop K timeout mr rd evs st = some (r, st') →
      BInv K st'
      ∧ (∀ lst, r = .ok lst → st'.pending = []
          ∧ lst.length = K
          ∧ ∀ i, i < K → ∃ o, lst.get? i = some o ∧ alookup st'.responses i = some o)
      ∧ (∀ e, r = .error e → ∃ t, e = .timedOut t ∧ timeout < t) := by
  intro evs
  induction evs with
  | nil =>
      intro st r st' hinv hrun
      by_cases hp : st.pending.isEmpty = true
      · rw [runLoop, if_pos hp] at hrun
        injection hrun with hrun
        injection hrun with hr hst
        subst hst
        obtain ⟨os, h1, h2, h3⟩ := assemble_spec K st hinv hp
        refine ⟨hinv, ?_, ?_⟩
        · intro lst hlst
          rw [← hr, h1] at hlst
          injection hlst with hlst
          subst hlst
          exact ⟨List.isEmpty_iff.mp hp, h2, h3⟩
        · intro e he
          rw [← hr, h1] at he
          exact Except.noConfusion he
      · rw [runLoop, if_neg hp] at hrun
        exact Option.noConfusion hrun
  | cons tev rest ih =>
      intro st r st' hinv hrun
      rcases tev with ⟨t, ev⟩
      by_cases hp : st.pending.isEmpty = true
      · rw [runLoop, if_pos hp] at hrun
        injection hrun with hrun
        injection hrun with hr hst
        subst hst
        obtain ⟨os, h1, h2, h3⟩ := assemble_spec K st hinv hp
        refine ⟨hinv, ?_, ?_⟩
        · intro lst hlst
          rw [← hr, h1] at hlst
          injection hlst with hlst
          subst hlst
          exact ⟨List.isEmpty_iff.mp hp, h2, h3⟩
        · intro e he
          rw [← hr, h1] at he
          exact Except.noConfusion he
      · rw [runLoop, if_neg hp] at hrun
        by_cases ht : timeout < t
        · rw [if_pos ht] at hrun
          injection hrun with hrun
          injection hrun with hr hst
          subst hst
          refine ⟨hinv, ?_, ?_⟩
          · intro lst hlst
            rw [← hr] at hlst
            exact Except.noConfusion hlst
          · intro e he
            rw [← hr] at he
            injection he with he
            exact ⟨t, he.symm, ht⟩
        · rw [if_neg ht] at hrun
          exact ih (stepEvent K mr rd st ev) r st' (stepEvent_inv K mr rd st ev hinv) hrun

/-! ## Claim C1 -/

/-- Claim C1: whenever `make_multiple_requests` returns normally on a
batch of `K` requests, the returned list has length `K` and, for every
submission index `i`, the entry at position `i` is exactly the outcome the
loop recorded for submission index `i` (success outcomes carry
`_request_order = i`) — for **every** event trace, i.e. regardless of the
order in which response events arrive. -/
theorem C1_batch_order :
    ∀ (K timeout mr rd : Nat) (events : List (Nat × BEvent)) (lst : List Outcome)
      (st' : BState),
      make_multiple_requests K timeout mr rd events = some (.ok lst, st') →
      lst.length = K
      ∧ ∀ i, i < K → ∃ o, lst.get? i = some o
          ∧ alookup st'.responses i = some o
          ∧ (∀ f r, o = .success f r → r = i) := by
  intro K timeout mr rd events lst st' h
  obtain ⟨hinv, hok, _⟩ :=
    runLoop_spec K timeout mr rd events (initState K) (.ok lst) st' (binv_init K) h
  obtain ⟨hpend, hlen, hget⟩ := hok lst rfl
  refine ⟨hlen, ?_⟩
  intro i hi
  obtain ⟨o, h1, h2⟩ := hget i hi
  exact ⟨o, h1, h2, fun f r hfr => hinv.tag i f r (by rw [← hfr]; exact h2)⟩

/-- Witness for C1: a two-request batch whose responses arrive in reverse
order still yields the outcomes in submission order. -/
theorem C1_batch_order_witness :
    (∃ o, [Outcome.success [("f", "v0")] 0, Outcome.success [("f", "v1")] 1].get? 0 = some o
      ∧ alookup [(1, Outcome.success [("f", "v1")] 1), (0, Outcome.success [("f", "v0")] 0)] 0
          = some o
      ∧ (∀ f r, o = .success f r → r = 0)) := by
  have h := C1_batch_order 2 1200 3 30
    [(0, ⟨.response, [⟨[1], "cmpJsonResponse", false, "", .excelResults [[("f", "v1")]], "m1"⟩]⟩),
     (1, ⟨.partialResponse, [⟨[0], "cmpJsonResponse", false, "", .excelResults [[("f", "v0")]], "m0"⟩]⟩)]
    [Outcome.success [("f", "v0")] 0, Outcome.success [("f", "v1")] 1]
    ⟨[], [(1, Outcome.success [("f", "v1")] 1), (0, Outcome.success [("f", "v0")] 0)],
     [(0, 0), (1, 0)], [(1, 1), (0, 1)], [], []⟩
    (by decide)
  exact h.2 0 (by omega)

/-! ## Claim C2 -/

/-- Claim C2: whenever `make_multiple_requests` completes, either it
returns normally — and then the Pending Set is empty and every submitted
index has exactly one recorded terminal outcome (its `responses` entry was
assigned exactly once and is present) — or it raises the timeout error,
which happens only when the observed elapsed time exceeds `timeout`, and
which carries no outcome list (the error constructor has no list, so no
partial results reach the caller). -/
theorem C2_no_silent_drop :
    ∀ (K timeout mr rd : Nat) (events : List (Nat × BEvent))
      (r : Except BErr (List Outcome)) (st' : BState),
      make_multiple_requests K timeout mr rd events = some (r, st') →
      (∀ lst, r = .ok lst → st'.pending = []
        ∧ ∀ i, i < K → alookupD st'.writes i 0 = 1 ∧ (alookup st'.responses i).isSome)
      ∧ (∀ e, r = .error e → ∃ t, e = .timedOut t ∧ timeout < t) := by
  intro K timeout mr rd events r st' h
  obtain ⟨hinv, hok, herr⟩ :=
    runLoop_spec K timeout mr rd events (initState K) r st' (binv_init K) h
  refine ⟨?_, herr⟩
  intro lst hlst
  obtain ⟨hpend, _, hget⟩ := hok lst hlst
  refine ⟨hpend, ?_⟩
  intro i hi
  have hnot : i ∉ st'.pending := by rw [hpend]; simp
  constructor
  · rw [hinv.writes_eq i hi, if_neg hnot]
  · obtain ⟨o, _, h2⟩ := hget i hi
    rw [h2]
    rfl

/-- Witness for C2: the reverse-order two-request batch again; on normal
return the pending set is empty and index 0 was written exactly once. -/
theorem C2_no_silent_drop_witness :
    ((⟨[], [(1, Outcome.success [("f", "v1")] 1), (0, Outcome.success [("f", "v0")] 0)],
       [(0, 0), (1, 0)], [(1, 1), (0, 1)], [], []⟩ : BState).pending = [])
    ∧ alookupD (⟨[], [(1, Outcome.success [("f", "v1")] 1), (0, Outcome.success [("f", "v0")] 0)],
       [(0, 0), (1, 0)], [(1, 1), (0, 1)], [], []⟩ : BState).writes 0 0 = 1 := by
  have h := C2_no_silent_drop 2 1200 3 30
    [(0, ⟨.response, [⟨[1], "cmpJsonResponse", false, "", .excelResults [[("f", "v1")]], "m1"⟩]⟩),
     (1, ⟨.partialResponse, [⟨[0], "cmpJsonResponse", false, "", .excelResults [[("f", "v0")]], "m0"⟩]⟩)]
    (.ok [Outcome.success [("f", "v0")] 0, Outcome.success [("f", "v1")] 1])
    ⟨[], [(1, Outcome.success [("f", "v1")] 1), (0, Outcome.success [("f", "v0")] 0)],
     [(0, 0), (1, 0)], [(1, 1), (0, 1)], [], []⟩
    (by decide)
  obtain ⟨hok, _⟩ := h
  obtain ⟨hpend, hw⟩ := hok _ rfl
  exact ⟨hpend, (hw 0 (by omega)).1⟩

/-! ## Claim C3 -/

/-- Claim C3: in batch mode, a partial or full response that carries a
throttling error ("Limit reached") for a pending index `i` behaves as
follows.  If `retry_counts[i] < max_retries`: the counter is incremented,
the loop sleeps `retry_delay`, the request is resubmitted under a
correlation id with the same integer value `i`, and the index stays
pending with no outcome recorded.  Otherwise: a terminal failure outcome
"Throttle limit reached after N retries." is recorded for `i`, `i` leaves
the pending set (all other indices stay), and nothing is resubmitted. -/
theorem C3_throttle_retry :
    ∀ (K mr rd : Nat) (etype : EvType) (st : BState) (m : BMsg) (cid : Int)
      (rest : List Int),
      m.corrIds = cid :: rest → 0 ≤ cid → cid < (K : Int) →
      cid.toNat ∈ st.pending →
      m.msgType ≠ "RequestFailure" →
      (etype = .partialResponse ∨ etype = .response) →
      m.hasError = true →
      pyInStr "Limit reached" m.errMsg = true →
      ((alookupD st.retryCounts cid.toNat 0 < mr →
          (processMsg K mr rd etype st m).pending = st.pending
          ∧ (processMsg K mr rd etype st m).responses = st.responses
          ∧ alookupD (processMsg K mr rd etype st m).retryCounts cid.toNat 0
              = alookupD st.retryCounts cid.toNat 0 + 1
          ∧ (processMsg K mr rd etype st m).slept = st.slept ++ [rd]
          ∧ (processMsg K mr rd etype st m).resent = st.resent ++ [cid.toNat])
        ∧ (¬ alookupD st.retryCounts cid.toNat 0 < mr →
            cid.toNat ∉ (processMsg K mr rd etype st m).pending
            ∧ (∀ j ∈ st.pending, j ≠ cid.toNat → j ∈ (processMsg K mr rd etype st m).pending)
            ∧ alookup (processMsg K mr rd etype st m).responses cid.toNat
                = some (.failure ("Throttle limit reached after " ++ toString mr ++ " retries."))
            ∧ (processMsg K mr rd etype st m).resent = st.resent)) := by
  intro K mr rd etype st m cid rest hc h0 hK hpend hmt hev herr hthr
  have hred : processMsg K mr rd etype st m
      = (if alookupD st.retryCounts cid.toNat 0 < mr then
          { st with
            retryCounts := aupsert st.retryCounts cid.toNat
              (alookupD st.retryCounts cid.toNat 0 + 1)
            slept := st.slept ++ [rd]
            resent := st.resent ++ [cid.toNat] }
        else
          recordTerminal st cid.toNat
            (.failure ("Throttle limit reached after " ++ toString mr ++ " retries."))) := by
    simp only [processMsg, hc]
    rw [if_pos ⟨h0, hK⟩, if_pos hpend, if_neg hmt, if_pos hev, if_pos herr, if_pos hthr]
  constructor
  · intro hlt
    rw [hred, if_pos hlt]
    refine ⟨rfl, rfl, ?_, rfl, rfl⟩
    rw [alookupD, alookup_aupsert_self]
    rfl
  · intro hge
    rw [hred, if_neg hge]
    refine ⟨?_, ?_, ?_, rfl⟩
    · simp only [recordTerminal]
      rw [mem_filter_ne]
      rintro ⟨_, hne⟩
      exact hne rfl
    · intro j hj hne
      simp only [recordTerminal]
      rw [mem_filter_ne]
      exact ⟨hj, hne⟩
    · simp only [recordTerminal]
      rw [alookup_aupsert_self]

/-- Witness for C3: a throttle message for pending index 0 with retry
counter 0 and `max_retries = 3` — the index stays pending, the counter
becomes 1, the loop sleeps 30 seconds and resends correlation value 0. -/
theorem C3_throttle_retry_witness :
    (processMsg 1 3 30 .response ⟨[0], [], [(0, 0)], [], [], []⟩
      ⟨[0], "other", true, "Limit reached: slow down", .otherJson "", "mt"⟩).pending = [0]
    ∧ (processMsg 1 3 30 .response ⟨[0], [], [(0, 0)], [], [], []⟩
      ⟨[0], "other", true, "Limit reached: slow down", .otherJson "", "mt"⟩).slept = [30]
    ∧ (processMsg 1 3 30 .response ⟨[0], [], [(0, 0)], [], [], []⟩
      ⟨[0], "other", true, "Limit reached: slow down", .otherJson "", "mt"⟩).resent = [0] := by
  have h := C3_throttle_retry 1 3 30 .response ⟨[0], [], [(0, 0)], [], [], []⟩
    ⟨[0], "other", true, "Limit reached: slow down", .otherJson "", "mt"⟩ 0 []
    rfl (by decide) (by decide) (by decide) (by decide) (Or.inr rfl) rfl (by decide)
  obtain ⟨h1, _⟩ := h
  obtain ⟨hp, _, _, hs, hr⟩ := h1 (by decide)
  exact ⟨hp, by rw [hs]; rfl, by rw [hr]; rfl⟩

end BloombergFetch
